import Mathlib

/-!
Verification development for the Enatega Estimation Bot repository.

Python strings are modelled as `List Char` (`PyStr`), Python floats as `ℚ`
(exact rational arithmetic; Python's binary floating point is idealised, and
`round` is modelled as round-half-to-even on the exact value, matching
Python's documented tie-breaking rule).  Python exceptions are modelled with
`Except Unit`, and each LLM round trip is one entry of a response stream
`Nat → Except Unit PyStr` (an `Except.error` models a transport failure of
the call, an `Except.ok` the raw text returned by the model); the stream is
indexed by a call counter so that successive calls may answer differently,
matching the sampling non-determinism of the provider.  Prompt construction
is not modelled where noted: under the response-stream model the prompt text
sent to the provider has no influence on the value the service returns.
-/

set_option maxRecDepth 4096

/- The core rational operations are `@[irreducible]`, which blocks `decide`
from evaluating concrete witnesses; restore the default reducibility so the
kernel can run the models on concrete inputs. -/
set_option allowUnsafeReducibility true

attribute [semireducible] Rat.add Rat.mul Rat.sub Rat.inv

deriving instance DecidableEq for Except

/-! ## Python string primitives -/

/-- Model of a Python `str` as a list of characters. -/
abbrev PyStr := List Char

/-- Coercion helper from Lean string literals. -/
def pyOf (s : String) : PyStr := s.data

/-- Whitespace test used by `str.split()` and `str.strip()` (ASCII subset). -/
def isPyWs (c : Char) : Bool :=
  c == ' ' || c == '\t' || c == '\n' || c == '\r' || c == '\x0b' || c == '\x0c'

/-- Python `str.lower()` (ASCII case folding). -/
def pyLower (s : PyStr) : PyStr := s.map Char.toLower

/-- Python `str.strip()`: drop leading and trailing whitespace. -/
def pyStrip (s : PyStr) : PyStr :=
  ((s.dropWhile isPyWs).reverse.dropWhile isPyWs).reverse

/-- Auxiliary for `pySplitWs`: accumulate the current word (reversed). -/
def pySplitWsAux : PyStr → PyStr → List PyStr
  | [], acc => if acc.isEmpty then [] else [acc.reverse]
  | c :: rest, acc =>
    if isPyWs c then
      if acc.isEmpty then pySplitWsAux rest []
      else acc.reverse :: pySplitWsAux rest []
    else pySplitWsAux rest (c :: acc)

/-- Python `str.split()` with no argument: split on whitespace runs, dropping
empty pieces. -/
def pySplitWs (s : PyStr) : List PyStr := pySplitWsAux s []

/-- Boolean prefix test on character lists. -/
def prefixB : PyStr → PyStr → Bool
  | [], _ => true
  | _ :: _, [] => false
  | a :: as, b :: bs => a == b && prefixB as bs

/-- Boolean substring test: Python's `needle in haystack` on strings. -/
def infixB (n : PyStr) : PyStr → Bool
  | [] => n.isEmpty
  | c :: rest => prefixB n (c :: rest) || infixB n rest

theorem prefixB_append (n t : PyStr) : prefixB n (n ++ t) = true := by
  induction n with
  | nil => rfl
  | cons c cs ih => simp [prefixB, ih]

theorem infixB_append (n s t : PyStr) : infixB n (s ++ n ++ t) = true := by
  induction s with
  | nil =>
    cases n with
    | nil =>
      cases t with
      | nil => rfl
      | cons c cs => simp [infixB, prefixB]
    | cons c cs =>
      have h := prefixB_append (c :: cs) t
      simp only [List.nil_append, List.cons_append, infixB, Bool.or_eq_true]
      exact Or.inl (by simpa using h)
  | cons c cs ih =>
    simp only [List.cons_append, infixB, Bool.or_eq_true]
    exact Or.inr ih

/-- Python string concatenation of a list with a separator (`sep.join`). -/
def pyJoin (sep : PyStr) : List PyStr → PyStr
  | [] => []
  | [s] => s
  | s :: rest => s ++ sep ++ pyJoin sep rest

/-! ## Python rounding and number formatting

`round(x, n)` in Python rounds half to even.  On the exact rational model we
round `x * 10^n` half to even to an integer and divide back. -/

/-- Round a rational half to even, to an integer. -/
def rndHalfEven (q : ℚ) : ℤ :=
  if q - ⌊q⌋ < 1/2 then ⌊q⌋
  else if 1/2 < q - ⌊q⌋ then ⌊q⌋ + 1
  else if ⌊q⌋ % 2 = 0 then ⌊q⌋ else ⌊q⌋ + 1

/-- Model of Python `round(x, n)` on exact rationals. -/
def pyRound (n : ℕ) (q : ℚ) : ℚ :=
  (rndHalfEven (q * 10 ^ n) : ℚ) / 10 ^ n

theorem rndHalfEven_ge_floor (q : ℚ) : ⌊q⌋ ≤ rndHalfEven q := by
  unfold rndHalfEven
  split_ifs <;> omega

theorem rndHalfEven_le_floor_add_one (q : ℚ) : rndHalfEven q ≤ ⌊q⌋ + 1 := by
  unfold rndHalfEven
  split_ifs <;> omega

theorem rndHalfEven_le (q : ℚ) : |(rndHalfEven q : ℚ) - q| ≤ 1/2 := by
  have h1 : (⌊q⌋ : ℚ) ≤ q := Int.floor_le q
  have h2 : q < ⌊q⌋ + 1 := Int.lt_floor_add_one q
  unfold rndHalfEven
  split_ifs with hc1 hc2 hc3 <;> rw [abs_le] <;> push_cast <;>
    constructor <;> linarith

theorem rndHalfEven_mono {a b : ℚ} (h : a ≤ b) : rndHalfEven a ≤ rndHalfEven b := by
  have hf : (⌊a⌋ : ℤ) ≤ ⌊b⌋ := Int.floor_le_floor h
  rcases lt_or_eq_of_le hf with hlt | heq
  · have ha := rndHalfEven_le_floor_add_one a
    have hb := rndHalfEven_ge_floor b
    omega
  · have hr : a - (⌊a⌋ : ℚ) ≤ b - ⌊b⌋ := by
      rw [← heq]; push_cast; linarith
    unfold rndHalfEven
    rw [heq] at *
    split_ifs <;> first | omega | linarith

theorem pyRound_err (n : ℕ) (q : ℚ) : |pyRound n q - q| ≤ 1 / (2 * 10 ^ n) := by
  have hp : (0:ℚ) < 10 ^ n := by positivity
  have h := rndHalfEven_le (q * 10 ^ n)
  have heq : pyRound n q - q = ((rndHalfEven (q * 10 ^ n) : ℚ) - q * 10 ^ n) / 10 ^ n := by
    unfold pyRound
    field_simp
    ring
  rw [heq, abs_div, abs_of_pos hp, div_le_div_iff hp (by positivity)]
  nlinarith [h, hp]

theorem pyRound_mono (n : ℕ) {a b : ℚ} (h : a ≤ b) : pyRound n a ≤ pyRound n b := by
  unfold pyRound
  have hp : (0:ℚ) < 10 ^ n := by positivity
  have hm := rndHalfEven_mono (mul_le_mul_of_nonneg_right h (le_of_lt hp))
  exact div_le_div_of_nonneg_right (by exact_mod_cast hm) (le_of_lt hp)

theorem pyRound_nonneg (n : ℕ) {q : ℚ} (h : 0 ≤ q) : 0 ≤ pyRound n q := by
  have h0 : pyRound n 0 = 0 := by
    unfold pyRound rndHalfEven
    norm_num
  calc (0:ℚ) = pyRound n 0 := h0.symm
    _ ≤ pyRound n q := pyRound_mono n h

/-- Decimal digits of a natural number. -/
def natChars (n : ℕ) : PyStr := (Nat.repr n).data

/-- Python `"%.2f"` / `f"{x:.2f}"` formatting of a float, on the exact
rational model (round half to even to two decimals, then print with exactly
two fractional digits). -/
def fmt2 (q : ℚ) : PyStr :=
  let c : ℤ := rndHalfEven (q * 100)
  let a : ℕ := c.natAbs
  let fr : ℕ := a % 100
  (if c < 0 then ['-'] else []) ++ natChars (a / 100) ++ ['.'] ++
    (if fr < 10 then '0' :: natChars fr else natChars fr)

/-- Python `str()` / f-string rendering of a float that carries at most two
decimal places (every float the engine prints has been passed through
`round(x, 2)`); trailing zeros are dropped but at least one fractional digit
is kept, as in `repr` of a Python float.  Values that do not have an exact
two-decimal representation render as a placeholder; the engine never
produces such values. -/
def pyFloatRepr (q : ℚ) : PyStr :=
  if (q * 100).den = 1 then
    let c : ℤ := (q * 100).num
    let a : ℕ := c.natAbs
    let fr : ℕ := a % 100
    (if c < 0 then ['-'] else []) ++ natChars (a / 100) ++ ['.'] ++
      (if fr = 0 then ['0']
       else if fr % 10 = 0 then natChars (fr / 10)
       else if fr < 10 then '0' :: natChars fr
       else natChars fr)
  else ['?']

/-! ## Stable sorting

Python's `list.sort(reverse=True, key=...)` is a stable sort by descending
key.  A stable sort is unique as a function of the key order, so we model it
once by insertion: an element is inserted behind every earlier element whose
key is at least as large. -/

/-- Insert behind all elements with a greater-or-equal key (descending,
stable). -/
def insertDescBy {α : Type} (key : α → ℤ) (x : α) : List α → List α
  | [] => [x]
  | y :: ys => if key y < key x then x :: y :: ys else y :: insertDescBy key x ys

/-- Stable sort, descending by an integer key. -/
def sortDescBy {α : Type} (key : α → ℤ) (l : List α) : List α :=
  l.foldl (fun acc x => insertDescBy key x acc) []

/-! ## A model of Python's JSON values and `json.loads`

`json.loads` (strict mode, as used throughout the service) parses the exact
RFC 8259 grammar: the model rejects leading zeros, trailing garbage, raw
control characters in strings and unknown escapes, as CPython does.  The
CPython extensions `NaN`/`Infinity` and surrogate-pair combining are not
modelled.  Python dicts keep the first-occurrence order of keys with the
last value winning, which `dictSet` reproduces. -/

inductive Json where
  | null
  | bool (b : Bool)
  | num (q : ℚ)
  | str (s : PyStr)
  | arr (elems : List Json)
  | obj (kvs : List (PyStr × Json))

instance : Inhabited Json := ⟨Json.null⟩

/-- First value bound to a key in an association list (keys are unique after
parsing). -/
def dictGet? (kvs : List (PyStr × Json)) (k : PyStr) : Option Json :=
  (kvs.find? (fun kv => kv.1 == k)).map (·.2)

/-- Python `dict.get(k, d)`. -/
def dictGetD (kvs : List (PyStr × Json)) (k : PyStr) (d : Json) : Json :=
  (dictGet? kvs k).getD d

/-- Python `k in dict`. -/
def hasKey (kvs : List (PyStr × Json)) (k : PyStr) : Bool :=
  (kvs.find? (fun kv => kv.1 == k)).isSome

/-- Update a key in place or append it, as Python dict assignment does. -/
def dictSet : List (PyStr × Json) → PyStr → Json → List (PyStr × Json)
  | [], k, v => [(k, v)]
  | (k0, v0) :: rest, k, v =>
    if k0 == k then (k0, v) :: rest else (k0, v0) :: dictSet rest k v

/-- Numeric view of a JSON value under Python arithmetic: numbers are
numbers and booleans are the integers 0 and 1; everything else raises
`TypeError` when used in arithmetic. -/
def asNum : Json → Option ℚ
  | .num q => some q
  | .bool b => some (if b then 1 else 0)
  | _ => none

/-- Python truthiness of a parsed JSON value. -/
def truthy : Json → Bool
  | .null => false
  | .bool b => b
  | .num q => decide (q ≠ 0)
  | .str s => !s.isEmpty
  | .arr l => !l.isEmpty
  | .obj kvs => !kvs.isEmpty

/-- Python iteration over a parsed JSON value: lists yield elements,
strings yield one-character strings, dicts yield their keys, and scalars
raise `TypeError`. -/
def pyIter : Json → Except Unit (List Json)
  | .arr l => .ok l
  | .str s => .ok (s.map (fun c => Json.str [c]))
  | .obj kvs => .ok (kvs.map (fun kv => Json.str kv.1))
  | _ => .error ()

/-- JSON structural whitespace. -/
def jsonWsB (c : Char) : Bool := c == ' ' || c == '\t' || c == '\n' || c == '\r'

/-- Skip JSON whitespace. -/
def skipJWs (s : PyStr) : PyStr := s.dropWhile jsonWsB

/-- Hexadecimal digit value. -/
def hexVal (c : Char) : Option ℕ :=
  if '0' ≤ c ∧ c ≤ '9' then some (c.toNat - '0'.toNat)
  else if 'a' ≤ c ∧ c ≤ 'f' then some (c.toNat - 'a'.toNat + 10)
  else if 'A' ≤ c ∧ c ≤ 'F' then some (c.toNat - 'A'.toNat + 10)
  else none

/-- Parse the body of a JSON string literal (after the opening quote);
returns the decoded string and the rest of the input. -/
def parseJStrAux : PyStr → PyStr → Option (PyStr × PyStr)
  | [], _ => none
  | '"' :: rest, acc => some (acc.reverse, rest)
  | '\\' :: rest, acc =>
    match rest with
    | '"' :: r => parseJStrAux r ('"' :: acc)
    | '\\' :: r => parseJStrAux r ('\\' :: acc)
    | '/' :: r => parseJStrAux r ('/' :: acc)
    | 'b' :: r => parseJStrAux r ('\x08' :: acc)
    | 'f' :: r => parseJStrAux r ('\x0c' :: acc)
    | 'n' :: r => parseJStrAux r ('\n' :: acc)
    | 'r' :: r => parseJStrAux r ('\r' :: acc)
    | 't' :: r => parseJStrAux r ('\t' :: acc)
    | 'u' :: h1 :: h2 :: h3 :: h4 :: r =>
      match hexVal h1, hexVal h2, hexVal h3, hexVal h4 with
      | some a, some b, some c, some d =>
        parseJStrAux r (Char.ofNat (((a * 16 + b) * 16 + c) * 16 + d) :: acc)
      | _, _, _, _ => none
    | _ => none
  | c :: rest, acc =>
    if c.toNat < 0x20 then none else parseJStrAux rest (c :: acc)

/-- Digits of a decimal literal as a natural number. -/
def digitsToNat (ds : PyStr) : ℕ :=
  ds.foldl (fun n c => n * 10 + (c.toNat - '0'.toNat)) 0

/-- Parse a JSON number at the head of the input. -/
def parseJNum (s : PyStr) : Option (ℚ × PyStr) :=
  let (neg, s1) :=
    match s with
    | '-' :: r => (true, r)
    | _ => (false, s)
  let ds := s1.takeWhile Char.isDigit
  let r1 := s1.dropWhile Char.isDigit
  if ds.isEmpty then none
  else if 1 < ds.length ∧ ds.head? = some '0' then none
  else
    let ipart : ℚ := (digitsToNat ds : ℚ)
    let (val1, r2) :=
      match r1 with
      | '.' :: r =>
        let fs := r.takeWhile Char.isDigit
        let r' := r.dropWhile Char.isDigit
        if fs.isEmpty then (none, r1)
        else (some (ipart + (digitsToNat fs : ℚ) / 10 ^ fs.length), r')
      | _ => (some ipart, r1)
    match val1 with
    | none => none
    | some v =>
      let (val2, r3) :=
        match r2 with
        | 'e' :: r => (parseJExp v r : Option ℚ × PyStr)
        | 'E' :: r => parseJExp v r
        | _ => (some v, r2)
      match val2 with
      | none => none
      | some v2 => some (if neg then -v2 else v2, r3)
where
  parseJExp (v : ℚ) (r : PyStr) : Option ℚ × PyStr :=
    let (eneg, re) :=
      match r with
      | '+' :: r' => (false, r')
      | '-' :: r' => (true, r')
      | _ => (false, r)
    let es := re.takeWhile Char.isDigit
    let r' := re.dropWhile Char.isDigit
    if es.isEmpty then (none, r)
    else
      let e : ℕ := digitsToNat es
      (some (if eneg then v / 10 ^ e else v * 10 ^ e), r')

mutual

/-- Fueled recursive-descent parser for a JSON value. -/
def parseJVal : ℕ → PyStr → Option (Json × PyStr)
  | 0, _ => none
  | fuel+1, s =>
    match skipJWs s with
    | 'n' :: 'u' :: 'l' :: 'l' :: r => some (.null, r)
    | 't' :: 'r' :: 'u' :: 'e' :: r => some (.bool true, r)
    | 'f' :: 'a' :: 'l' :: 's' :: 'e' :: r => some (.bool false, r)
    | '"' :: r => (parseJStrAux r []).map (fun p => (Json.str p.1, p.2))
    | '[' :: r =>
      match skipJWs r with
      | ']' :: r2 => some (.arr [], r2)
      | r2 => (parseJArrItems fuel r2).map (fun p => (Json.arr p.1, p.2))
    | '{' :: r =>
      match skipJWs r with
      | '}' :: r2 => some (.obj [], r2)
      | r2 =>
        (parseJObjItems fuel r2).map (fun p =>
          (Json.obj (p.1.foldl (fun acc kv => dictSet acc kv.1 kv.2) []), p.2))
    | r => (parseJNum r).map (fun p => (Json.num p.1, p.2))

/-- Comma-separated array items up to the closing bracket. -/
def parseJArrItems : ℕ → PyStr → Option (List Json × PyStr)
  | 0, _ => none
  | fuel+1, s => do
    let (v, r) ← parseJVal fuel s
    match skipJWs r with
    | ',' :: r2 => do
      let (vs, r3) ← parseJArrItems fuel r2
      pure (v :: vs, r3)
    | ']' :: r2 => pure ([v], r2)
    | _ => none

/-- Comma-separated object members up to the closing brace. -/
def parseJObjItems : ℕ → PyStr → Option (List (PyStr × Json) × PyStr)
  | 0, _ => none
  | fuel+1, s =>
    match skipJWs s with
    | '"' :: r => do
      let (k, r1) ← parseJStrAux r []
      match skipJWs r1 with
      | ':' :: r2 => do
        let (v, r3) ← parseJVal fuel r2
        match skipJWs r3 with
        | ',' :: r4 => do
          let (kvs, r5) ← parseJObjItems fuel r4
          pure ((k, v) :: kvs, r5)
        | '}' :: r4 => pure ([(k, v)], r4)
        | _ => none
      | _ => none
    | _ => none

end

/-- Model of Python `json.loads`: parse one JSON document, allowing only
whitespace around it; any parse error raises `json.JSONDecodeError`,
modelled by `none`. -/
def jsonLoads (s : PyStr) : Option Json :=
  match parseJVal (2 * s.length + 4) s with
  | some (v, rest) => if (skipJWs rest).isEmpty then some v else none
  | none => none

/-! ## `app/services/estimation_engine.py` — `EstimationEngine`

The engine is constructed with `hourly_rate or settings.DEFAULT_HOURLY_RATE`
and `settings.BUFFER_PERCENTAGE`; both are kept as parameters `rate` and
`buffer`.  Feature dicts are parsed JSON objects; a feature whose fields
make Python raise (`TypeError` on arithmetic with a non-numeric value, or a
pydantic validation error on a non-string name/complexity) is an
`Except.error`. -/

def DEFAULT_HOURLY_RATE : ℚ := 30

def BUFFER_PERCENTAGE : ℚ := 1/5

/-- Key constants for feature dicts. -/
def kNameK : PyStr := "name".data

def kDescriptionK : PyStr := "description".data

def kMinK : PyStr := "base_time_hours_min".data

def kMaxK : PyStr := "base_time_hours_max".data

def kHoursK : PyStr := "base_time_hours".data

def kComplexityK : PyStr := "complexity_level".data

def kUnknownV : PyStr := "Unknown".data

def kMediumV : PyStr := "medium".data

def kSimpleV : PyStr := "simple".data

def kComplexV : PyStr := "complex".data

/-- Complexity multiplier table of `EstimationEngine.__init__`; the lookup
default of `calculate_feature_time` is 1.3. -/
def complexityMultiplier (c : PyStr) : ℚ :=
  if c = kSimpleV then 1
  else if c = kMediumV then 13/10
  else if c = kComplexV then 9/5
  else 13/10

/-- `EstimationEngine.calculate_feature_time` (unused by the breakdown
path). -/
def calculateFeatureTime (baseHours : ℚ) (complexity : PyStr) : ℚ :=
  baseHours * complexityMultiplier (pyLower complexity)

/-- `EstimationEngine.apply_buffer`. -/
def applyBuffer (buffer t : ℚ) : ℚ := t * (1 + buffer)

/-- One line of `EstimationEngine.create_breakdown` output
(`FeatureBreakdown` of `app/models/schemas.py`, with the optional range
fields always populated by `create_breakdown`). -/
structure FeatureBreakdown where
  feature : PyStr
  description : Option PyStr
  time_hours : ℚ
  cost : ℚ
  complexity : PyStr
  time_min : ℚ
  time_max : ℚ
  cost_min : ℚ
  cost_max : ℚ

/-- Assemble one `FeatureBreakdown` record from validated fields: buffer
applied multiplicatively to both bounds, costs from the unrounded buffered
times, all stored fields rounded to two decimals. -/
def mkBreakdownLine (rate buffer : ℚ) (nm : PyStr) (ds : Option PyStr)
    (cpx : PyStr) (m mx : ℚ) : FeatureBreakdown :=
  let ftmin := m * (1 + buffer)
  let ftmax := mx * (1 + buffer)
  let cmin := ftmin * rate
  let cmax := ftmax * rate
  { feature := nm
    description := ds
    time_hours := pyRound 2 ((ftmin + ftmax) / 2)
    cost := pyRound 2 ((cmin + cmax) / 2)
    complexity := cpx
    time_min := pyRound 2 ftmin
    time_max := pyRound 2 ftmax
    cost_min := pyRound 2 cmin
    cost_max := pyRound 2 cmax }

/-- The body of the `create_breakdown` loop for one feature dict. -/
def breakdownLine (rate buffer : ℚ) (f : Json) : Except Unit FeatureBreakdown :=
  match f with
  | .obj kvs =>
    match asNum (dictGetD kvs kMinK (dictGetD kvs kHoursK (Json.num 0))) with
    | none => .error ()
    | some m =>
      match asNum (dictGetD kvs kMaxK (Json.num (m * (12/10)))) with
      | none => .error ()
      | some mx =>
        match dictGetD kvs kComplexityK (Json.str kMediumV) with
        | .str cpx =>
          match dictGetD kvs kNameK (Json.str kUnknownV) with
          | .str nm =>
            match dictGet? kvs kDescriptionK with
            | some (.str ds) => .ok (mkBreakdownLine rate buffer nm (some ds) cpx m mx)
            | some .null => .ok (mkBreakdownLine rate buffer nm none cpx m mx)
            | none => .ok (mkBreakdownLine rate buffer nm none cpx m mx)
            | some _ => .error ()
          | _ => .error ()
        | _ => .error ()
  | _ => .error ()

/-- `EstimationEngine.create_breakdown`. -/
def createBreakdown (rate buffer : ℚ) : List Json → Except Unit (List FeatureBreakdown)
  | [] => .ok []
  | f :: fs =>
    match breakdownLine rate buffer f with
    | .error e => .error e
    | .ok line =>
      match createBreakdown rate buffer fs with
      | .error e => .error e
      | .ok rest => .ok (line :: rest)

/-- `EstimationEngine.calculate_total`: elementwise sums of the four range
fields, each rounded to two decimals.  (The `getattr` defaults in the source
are dead: every pydantic `FeatureBreakdown` carries the attributes, and
`create_breakdown` always populates them.) -/
def calculateTotal (breakdown : List FeatureBreakdown) : ℚ × ℚ × ℚ × ℚ :=
  (pyRound 2 (breakdown.map (·.time_min)).sum,
   pyRound 2 (breakdown.map (·.time_max)).sum,
   pyRound 2 (breakdown.map (·.cost_min)).sum,
   pyRound 2 (breakdown.map (·.cost_max)).sum)

/-! ## `OpenAIService._normalize_features`

For each raw item: when both `base_time_hours_min` and `base_time_hours_max`
are present, the max is replaced by `min * 1.3` when it exceeds
`min * 1.5`, and both are rounded to one decimal; when only
`base_time_hours` is present, the range is `round(base*0.85, 1)` /
`round(base*1.15, 1)`; otherwise a fixed default range keyed by
`complexity_level` is assigned.  A non-dict item, or a non-numeric hour
value reached by the branch taken, raises (`TypeError` on arithmetic or
indexing, `AttributeError` on `.get`), aborting the whole call. -/

/-- Python `==` between a parsed JSON value and a string literal. -/
def jeqStr (j : Json) (s : PyStr) : Bool :=
  match j with
  | .str t => t == s
  | _ => false

/-- Normalization of a single raw feature item. -/
def normalizeFeature (f : Json) : Except Unit Json :=
  match f with
  | .obj kvs =>
    if hasKey kvs kMinK && hasKey kvs kMaxK then
      match asNum (dictGetD kvs kMinK .null), asNum (dictGetD kvs kMaxK .null) with
      | some m, some mxRaw =>
        let mx := if m * (3/2) < mxRaw then m * (13/10) else mxRaw
        .ok (.obj (dictSet (dictSet kvs kMinK (.num (pyRound 1 m)))
          kMaxK (.num (pyRound 1 mx))))
      | _, _ => .error ()
    else if hasKey kvs kHoursK then
      match asNum (dictGetD kvs kHoursK .null) with
      | some b =>
        .ok (.obj (dictSet (dictSet kvs kMinK (.num (pyRound 1 (b * (17/20)))))
          kMaxK (.num (pyRound 1 (b * (23/20))))))
      | none => .error ()
    else
      let cpx := dictGetD kvs kComplexityK (.str kMediumV)
      let mnmx : ℚ × ℚ :=
        if jeqStr cpx kSimpleV then (20, 35)
        else if jeqStr cpx kComplexV then (70, 120)
        else (40, 65)
      .ok (.obj (dictSet (dictSet kvs kMinK (.num mnmx.1)) kMaxK (.num mnmx.2)))
  | _ => .error ()

/-- `OpenAIService._normalize_features` over a raw list; any raising item
aborts the call, as the single `for` loop in the source does. -/
def normalizeFeatures : List Json → Except Unit (List Json)
  | [] => .ok []
  | f :: fs =>
    match normalizeFeature f with
    | .error e => .error e
    | .ok r =>
      match normalizeFeatures fs with
      | .error e => .error e
      | .ok rest => .ok (r :: rest)

/-- The `base_time_hours_min` field of a normalized item, viewed
numerically. -/
def hoursMinOf (j : Json) : ℚ :=
  match j with
  | .obj kvs => (asNum (dictGetD kvs kMinK .null)).getD 0
  | _ => 0

/-- The `base_time_hours_max` field of a normalized item, viewed
numerically. -/
def hoursMaxOf (j : Json) : ℚ :=
  match j with
  | .obj kvs => (asNum (dictGetD kvs kMaxK .null)).getD 0
  | _ => 0

theorem dictGet?_set_self (kvs : List (PyStr × Json)) (k : PyStr) (v : Json) :
    dictGet? (dictSet kvs k v) k = some v := by
  induction kvs with
  | nil => simp [dictSet, dictGet?, List.find?]
  | cons kv rest ih =>
    obtain ⟨k0, v0⟩ := kv
    by_cases h : (k0 == k) = true
    · simp [dictSet, h, dictGet?, List.find?]
    · rw [Bool.not_eq_true] at h
      simpa [dictSet, h, dictGet?, List.find?] using ih

theorem dictGet?_set_ne (kvs : List (PyStr × Json)) (k k' : PyStr) (v : Json)
    (h : (k' == k) = false) : dictGet? (dictSet kvs k v) k' = dictGet? kvs k' := by
  have hk : ¬ (k' = k) := by simpa using h
  induction kvs with
  | nil =>
    have h2 : (k == k') = false := by
      simpa using fun he => hk he.symm
    simp [dictSet, dictGet?, List.find?, h2]
  | cons kv rest ih =>
    obtain ⟨k0, v0⟩ := kv
    by_cases h2 : (k0 == k) = true
    · have hk0 : k0 = k := by simpa using h2
      have h3 : (k0 == k') = false := by
        simpa [hk0] using fun he => hk he.symm
      simp [dictSet, h2, dictGet?, List.find?, h3]
    · rw [Bool.not_eq_true] at h2
      by_cases h3 : (k0 == k') = true
      · simp [dictSet, h2, dictGet?, List.find?, h3]
      · rw [Bool.not_eq_true] at h3
        simpa [dictSet, h2, dictGet?, List.find?, h3] using ih

/-! ## Claims C2/C3 — normalization -/

/-- Spread cap as the amended claim words it: an explicitly provided max is
kept while it is within `min * 1.5` and replaced by `min * 1.3` once it
exceeds that. -/
def capSpread (m mxRaw : ℚ) : ℚ :=
  if mxRaw ≤ m * (3/2) then mxRaw else m * (13/10)

/-- Default range keyed by `complexity_level` (simple 20–35, complex 70–120,
anything else — including the default "medium" — 40–65). -/
def defaultRange (cpx : Json) : ℚ × ℚ :=
  if jeqStr cpx kSimpleV then (20, 35)
  else if jeqStr cpx kComplexV then (70, 120)
  else (40, 65)

/-- Spec-side description of one normalization step, written from the
amended claim: both bounds present — cap the spread with `capSpread` and
round both to one decimal; a single `base_time_hours` — synthesize
`±15%` rounded to one decimal; neither — assign the fixed default range
keyed by complexity. -/
def specNormalizeItem (kvs : List (PyStr × Json)) : Except Unit Json :=
  if hasKey kvs kMinK && hasKey kvs kMaxK then
    match asNum (dictGetD kvs kMinK .null), asNum (dictGetD kvs kMaxK .null) with
    | some m, some mxRaw =>
      .ok (.obj (dictSet (dictSet kvs kMinK (.num (pyRound 1 m)))
        kMaxK (.num (pyRound 1 (capSpread m mxRaw)))))
    | _, _ => .error ()
  else if hasKey kvs kHoursK then
    match asNum (dictGetD kvs kHoursK .null) with
    | some b =>
      .ok (.obj (dictSet (dictSet kvs kMinK (.num (pyRound 1 (b * (17/20)))))
        kMaxK (.num (pyRound 1 (b * (23/20))))))
    | none => .error ()
  else
    .ok (.obj (dictSet (dictSet kvs kMinK (.num (defaultRange (dictGetD kvs kComplexityK (.str kMediumV))).1))
      kMaxK (.num (defaultRange (dictGetD kvs kComplexityK (.str kMediumV))).2)))

/-- The two hour fields of every object produced by a normalization branch. -/
theorem hoursOf_set (kvs : List (PyStr × Json)) (x y : ℚ) :
    hoursMinOf (.obj (dictSet (dictSet kvs kMinK (.num x)) kMaxK (.num y))) = x ∧
    hoursMaxOf (.obj (dictSet (dictSet kvs kMinK (.num x)) kMaxK (.num y))) = y := by
  constructor
  · show (asNum (dictGetD (dictSet (dictSet kvs kMinK (.num x)) kMaxK (.num y)) kMinK .null)).getD 0 = x
    unfold dictGetD
    rw [dictGet?_set_ne _ _ _ _ (by decide), dictGet?_set_self]
    rfl
  · show (asNum (dictGetD (dictSet (dictSet kvs kMinK (.num x)) kMaxK (.num y)) kMaxK .null)).getD 0 = y
    unfold dictGetD
    rw [dictGet?_set_self]
    rfl

/-- C3 (corrected): for every raw feature dict, `_normalize_features` keeps
an explicitly provided max while it is within `min * 1.5` and replaces it by
`min * 1.3` only beyond that (so the spread is *not* capped to `min * 1.3`
whenever it exceeds it); a single `base_time_hours` value is synthesized
into `round(base*0.85, 1)` / `round(base*1.15, 1)`; with neither value the
fixed default range keyed by `complexity_level` is assigned (simple 20–35,
medium 40–65, complex 70–120). -/
theorem claim_normalize_branches (kvs : List (PyStr × Json)) :
    normalizeFeature (.obj kvs) = specNormalizeItem kvs := by
  unfold normalizeFeature specNormalizeItem
  by_cases hbk : (hasKey kvs kMinK && hasKey kvs kMaxK) = true
  · simp only [hbk, if_true]
    cases ham : asNum (dictGetD kvs kMinK .null) with
    | none => rfl
    | some m =>
      cases hbm : asNum (dictGetD kvs kMaxK .null) with
      | none => rfl
      | some mx =>
        have hcap : (if m * (3/2) < mx then m * (13/10) else mx) = capSpread m mx := by
          unfold capSpread
          by_cases hc : m * (3/2) < mx
          · rw [if_pos hc, if_neg (not_le.mpr hc)]
          · rw [if_neg hc, if_pos (not_lt.mp hc)]
        simp only [hcap]
  · rw [Bool.not_eq_true] at hbk
    simp only [hbk, Bool.false_eq_true, if_false]
    rfl

/-- C3 counterexample: a raw item with `min = 10, max = 14` keeps `max = 14`,
which exceeds `min * 1.3 = 13`, refuting "the resulting spread is capped so
that max ≤ min × 1.3". -/
theorem claim_normalize_branches_cx :
    (normalizeFeature (.obj [(kMinK, .num 10), (kMaxK, .num 14)])).map hoursMaxOf =
      .ok 14 ∧ ¬ ((14:ℚ) ≤ 10 * (13/10)) := by
  constructor
  · rfl
  · norm_num

/-- Well-formedness of a raw item for the amended range invariant: the hour
values the taken branch reads are nonnegative, and ordered when both are
present. -/
def rawNonnegB (j : Json) : Bool :=
  match j with
  | .obj kvs =>
    if hasKey kvs kMinK && hasKey kvs kMaxK then
      match asNum (dictGetD kvs kMinK .null), asNum (dictGetD kvs kMaxK .null) with
      | some m, some mx => decide (0 ≤ m) && decide (m ≤ mx)
      | _, _ => false
    else if hasKey kvs kHoursK then
      match asNum (dictGetD kvs kHoursK .null) with
      | some b => decide (0 ≤ b)
      | none => false
    else true
  | _ => false

/-- Range invariant of one normalized item. -/
theorem normalizeFeature_inv (j r : Json) (hok : normalizeFeature j = .ok r)
    (hw : rawNonnegB j = true) :
    0 ≤ hoursMinOf r ∧ hoursMinOf r ≤ hoursMaxOf r ∧
      (hoursMaxOf r ≤ hoursMinOf r * (3/2) + 1/8 ∨
        (hoursMinOf r, hoursMaxOf r) = ((20:ℚ), (35:ℚ)) ∨
        (hoursMinOf r, hoursMaxOf r) = ((40:ℚ), (65:ℚ)) ∨
        (hoursMinOf r, hoursMaxOf r) = ((70:ℚ), (120:ℚ))) := by
  have h20 : (1:ℚ) / (2 * 10 ^ 1) = 1/20 := by norm_num
  cases j with
  | obj kvs =>
    unfold normalizeFeature at hok
    unfold rawNonnegB at hw
    by_cases hbk : (hasKey kvs kMinK && hasKey kvs kMaxK) = true
    · simp only [hbk, if_true] at hok hw
      cases ham : asNum (dictGetD kvs kMinK .null) with
      | none => rw [ham] at hok; cases hbm : asNum (dictGetD kvs kMaxK .null) <;>
          rw [hbm] at hok <;> cases hok
      | some m =>
        cases hbm : asNum (dictGetD kvs kMaxK .null) with
        | none => rw [ham, hbm] at hok; cases hok
        | some mx =>
          rw [ham, hbm] at hok hw
          simp only [Bool.and_eq_true, decide_eq_true_eq] at hw
          obtain ⟨hm, hmx⟩ := hw
          simp only at hok
          injection hok with hok
          subst hok
          obtain ⟨e1, e2⟩ := hoursOf_set kvs (pyRound 1 m)
            (pyRound 1 (if m * (3/2) < mx then m * (13/10) else mx))
          rw [e1, e2]
          set mx' := if m * (3/2) < mx then m * (13/10) else mx with hmx'
          have hle : m ≤ mx' ∧ mx' ≤ m * (3/2) := by
            rw [hmx']
            by_cases hc : m * (3/2) < mx
            · rw [if_pos hc]; constructor <;> linarith
            · rw [if_neg hc]; constructor <;> linarith [not_lt.mp hc]
          have hub := (abs_le.mp (pyRound_err 1 mx')).2
          have hlb := (abs_le.mp (pyRound_err 1 m)).1
          rw [h20] at hub hlb
          refine ⟨pyRound_nonneg 1 hm, pyRound_mono 1 hle.1, Or.inl ?_⟩
          linarith [hle.1, hle.2, hm]
    · rw [Bool.not_eq_true] at hbk
      simp only [hbk, Bool.false_eq_true, if_false] at hok hw
      by_cases hh : hasKey kvs kHoursK = true
      · simp only [hh, if_true] at hok hw
        cases hab : asNum (dictGetD kvs kHoursK .null) with
        | none => rw [hab] at hok; cases hok
        | some b =>
          rw [hab] at hok hw
          simp only [decide_eq_true_eq] at hw
          simp only at hok
          injection hok with hok
          subst hok
          obtain ⟨e1, e2⟩ := hoursOf_set kvs (pyRound 1 (b * (17/20))) (pyRound 1 (b * (23/20)))
          rw [e1, e2]
          have hlower : (0:ℚ) ≤ b * (17/20) := by linarith
          have hmono : b * (17/20) ≤ b * (23/20) := by linarith
          have hub := (abs_le.mp (pyRound_err 1 (b * (23/20)))).2
          have hlb := (abs_le.mp (pyRound_err 1 (b * (17/20)))).1
          rw [h20] at hub hlb
          refine ⟨pyRound_nonneg 1 hlower, pyRound_mono 1 hmono, Or.inl ?_⟩
          linarith
      · rw [Bool.not_eq_true] at hh
        simp only [hh, Bool.false_eq_true, if_false] at hok
        injection hok with hok
        subst hok
        obtain ⟨e1, e2⟩ := hoursOf_set kvs _ _
        rw [e1, e2]
        by_cases hs : jeqStr (dictGetD kvs kComplexityK (.str kMediumV)) kSimpleV = true
        · simp only [hs, if_true]
          exact ⟨by norm_num, by norm_num, Or.inr (Or.inl trivial)⟩
        · rw [Bool.not_eq_true] at hs
          by_cases hx : jeqStr (dictGetD kvs kComplexityK (.str kMediumV)) kComplexV = true
          · simp only [hs, Bool.false_eq_true, if_false, hx, if_true]
            exact ⟨by norm_num, by norm_num, Or.inr (Or.inr (Or.inr trivial))⟩
          · rw [Bool.not_eq_true] at hx
            simp only [hs, hx, Bool.false_eq_true, if_false]
            exact ⟨by norm_num, by norm_num, Or.inr (Or.inr (Or.inl trivial))⟩
  | null => cases hok
  | bool b => cases hok
  | num q => cases hok
  | str s => cases hok
  | arr l => cases hok

/-- C2 (corrected): for raw items whose present hour values are nonnegative
(and ordered when both bounds are present), every normalized item satisfies
`0 ≤ min ≤ max`; the spread bound `max ≤ min × 1.5` holds only up to the
one-decimal rounding slack of `1/8`, and not at all for the fixed default
ranges 20–35, 40–65 and 70–120, which are assigned verbatim when no hour
value is present. -/
theorem claim_normalized_range_invariant :
    ∀ (fs out : List Json), normalizeFeatures fs = .ok out →
      (∀ f ∈ fs, rawNonnegB f = true) →
      ∀ j ∈ out, 0 ≤ hoursMinOf j ∧ hoursMinOf j ≤ hoursMaxOf j ∧
        (hoursMaxOf j ≤ hoursMinOf j * (3/2) + 1/8 ∨
          (hoursMinOf j, hoursMaxOf j) = ((20:ℚ), (35:ℚ)) ∨
          (hoursMinOf j, hoursMaxOf j) = ((40:ℚ), (65:ℚ)) ∨
          (hoursMinOf j, hoursMaxOf j) = ((70:ℚ), (120:ℚ))) := by
  intro fs
  induction fs with
  | nil =>
    intro out hok hw j hj
    injection hok with hok
    subst hok
    cases hj
  | cons f fs ih =>
    intro out hok hw j hj
    unfold normalizeFeatures at hok
    cases h1 : normalizeFeature f with
    | error e => rw [h1] at hok; cases hok
    | ok r =>
      rw [h1] at hok
      cases h2 : normalizeFeatures fs with
      | error e =>
        rw [h2] at hok
        cases hok
      | ok rest =>
        rw [h2] at hok
        injection hok with hok
        subst hok
        cases hj with
        | head => exact normalizeFeature_inv f j h1 (hw f (List.mem_cons_self f fs))
        | tail _ hmem =>
          exact ih rest h2 (fun g hg => hw g (List.mem_cons_of_mem f hg)) j hmem

/-- C2 counterexample: a raw item with no hour fields is normalized to the
default medium range 40–65, and `65 ≤ 40 × 1.5 = 60` fails — refuting the
claimed invariant `max ≤ min × 1.5` for normalized output. -/
theorem claim_normalized_range_invariant_cx :
    (normalizeFeatures [Json.obj []]).map
        (fun l => l.map fun j => (hoursMinOf j, hoursMaxOf j)) =
      .ok [((40:ℚ), (65:ℚ))] ∧
    ¬ ((65:ℚ) ≤ 40 * (3/2)) := by
  constructor
  · rfl
  · norm_num

/-- C2 witness: the theorem applied to the singleton raw list with
`base_time_hours = 10`, normalized to the range 8.5–11.5. -/
theorem claim_normalized_range_invariant_witness :
    0 ≤ hoursMinOf (Json.obj [(kHoursK, Json.num 10), (kMinK, Json.num (17/2)), (kMaxK, Json.num (23/2))]) ∧
    hoursMinOf (Json.obj [(kHoursK, Json.num 10), (kMinK, Json.num (17/2)), (kMaxK, Json.num (23/2))]) ≤
      hoursMaxOf (Json.obj [(kHoursK, Json.num 10), (kMinK, Json.num (17/2)), (kMaxK, Json.num (23/2))]) ∧
    (hoursMaxOf (Json.obj [(kHoursK, Json.num 10), (kMinK, Json.num (17/2)), (kMaxK, Json.num (23/2))]) ≤
        hoursMinOf (Json.obj [(kHoursK, Json.num 10), (kMinK, Json.num (17/2)), (kMaxK, Json.num (23/2))]) * (3/2) + 1/8 ∨
      (hoursMinOf (Json.obj [(kHoursK, Json.num 10), (kMinK, Json.num (17/2)), (kMaxK, Json.num (23/2))]),
        hoursMaxOf (Json.obj [(kHoursK, Json.num 10), (kMinK, Json.num (17/2)), (kMaxK, Json.num (23/2))])) = ((20:ℚ), (35:ℚ)) ∨
      (hoursMinOf (Json.obj [(kHoursK, Json.num 10), (kMinK, Json.num (17/2)), (kMaxK, Json.num (23/2))]),
        hoursMaxOf (Json.obj [(kHoursK, Json.num 10), (kMinK, Json.num (17/2)), (kMaxK, Json.num (23/2))])) = ((40:ℚ), (65:ℚ)) ∨
      (hoursMinOf (Json.obj [(kHoursK, Json.num 10), (kMinK, Json.num (17/2)), (kMaxK, Json.num (23/2))]),
        hoursMaxOf (Json.obj [(kHoursK, Json.num 10), (kMinK, Json.num (17/2)), (kMaxK, Json.num (23/2))])) = ((70:ℚ), (120:ℚ))) :=
  claim_normalized_range_invariant [Json.obj [(kHoursK, Json.num 10)]]
    [Json.obj [(kHoursK, Json.num 10), (kMinK, Json.num (17/2)), (kMaxK, Json.num (23/2))]]
    (by rfl) (by decide)
    (Json.obj [(kHoursK, Json.num 10), (kMinK, Json.num (17/2)), (kMaxK, Json.num (23/2))])
    (List.mem_cons_self _ _)

/-! ## Claims C4/C5/C6 — reconciliation engine -/

/-- Shape of every line `create_breakdown` produces: once the effective min
and max hours are known, the whole record is `mkBreakdownLine`. -/
theorem breakdownLine_ok_shape (rate buffer : ℚ) (kvs : List (PyStr × Json))
    (m mx : ℚ) (line : FeatureBreakdown)
    (h1 : asNum (dictGetD kvs kMinK (dictGetD kvs kHoursK (Json.num 0))) = some m)
    (h2 : asNum (dictGetD kvs kMaxK (Json.num (m * (12/10)))) = some mx)
    (h3 : breakdownLine rate buffer (.obj kvs) = .ok line) :
    line = mkBreakdownLine rate buffer line.feature line.description line.complexity m mx := by
  unfold breakdownLine at h3
  simp only at h3
  rw [h1] at h3
  simp only at h3
  rw [h2] at h3
  simp only at h3
  cases hcpx : dictGetD kvs kComplexityK (Json.str kMediumV) with
  | str cpx0 =>
    rw [hcpx] at h3
    cases hnm : dictGetD kvs kNameK (Json.str kUnknownV) with
    | str nm =>
      rw [hnm] at h3
      cases hds : dictGet? kvs kDescriptionK with
      | none =>
        rw [hds] at h3
        injection h3 with h3
        rw [← h3]
        rfl
      | some dv =>
        rw [hds] at h3
        cases dv with
        | str ds =>
          injection h3 with h3
          rw [← h3]
          rfl
        | null =>
          injection h3 with h3
          rw [← h3]
          rfl
        | bool b => cases h3
        | num q => cases h3
        | arr l => cases h3
        | obj o => cases h3
    | null => rw [hnm] at h3; cases h3
    | bool b => rw [hnm] at h3; cases h3
    | num q => rw [hnm] at h3; cases h3
    | arr l => rw [hnm] at h3; cases h3
    | obj o => rw [hnm] at h3; cases h3
  | null => rw [hcpx] at h3; cases h3
  | bool b => rw [hcpx] at h3; cases h3
  | num q => rw [hcpx] at h3; cases h3
  | arr l => rw [hcpx] at h3; cases h3
  | obj o => rw [hcpx] at h3; cases h3

theorem mkBreakdownLine_fields (rate buffer : ℚ) (nm : PyStr) (ds : Option PyStr)
    (cpx : PyStr) (m mx : ℚ) :
    (mkBreakdownLine rate buffer nm ds cpx m mx).time_min = pyRound 2 (m * (1 + buffer)) ∧
    (mkBreakdownLine rate buffer nm ds cpx m mx).time_max = pyRound 2 (mx * (1 + buffer)) ∧
    (mkBreakdownLine rate buffer nm ds cpx m mx).cost_min = pyRound 2 (m * (1 + buffer) * rate) ∧
    (mkBreakdownLine rate buffer nm ds cpx m mx).cost_max = pyRound 2 (mx * (1 + buffer) * rate) := by
  refine ⟨rfl, rfl, rfl, rfl⟩

/-- Rounding error budget when a cost is computed from the unrounded time
but compared against the rounded stored time. -/
theorem round2_cost_bound (t r : ℚ) :
    |pyRound 2 (t * r) - pyRound 2 t * r| ≤ (1 + |r|) / 200 := by
  have h1 := pyRound_err 2 (t * r)
  have h2 := pyRound_err 2 t
  have e : (1:ℚ)/(2 * 10 ^ 2) = 1/200 := by norm_num
  rw [e] at h1 h2
  have key : pyRound 2 (t * r) - pyRound 2 t * r =
      (pyRound 2 (t * r) - t * r) + (t - pyRound 2 t) * r := by ring
  rw [key]
  calc |(pyRound 2 (t * r) - t * r) + (t - pyRound 2 t) * r|
      ≤ |pyRound 2 (t * r) - t * r| + |(t - pyRound 2 t) * r| := abs_add _ _
    _ = |pyRound 2 (t * r) - t * r| + |t - pyRound 2 t| * |r| := by rw [abs_mul]
    _ ≤ 1/200 + 1/200 * |r| := by
        have h2' : |t - pyRound 2 t| ≤ 1/200 := by rw [abs_sub_comm]; exact h2
        have h3 := mul_le_mul_of_nonneg_right h2' (abs_nonneg r)
        linarith
    _ = (1 + |r|) / 200 := by ring

/-- C4 (corrected): each breakdown line's costs are
`round(unrounded_buffered_time × hourly_rate, 2)` — computed from the
*unrounded* buffered time, not from the stored rounded `time_min`/`time_max`
fields; relative to the stored fields the claimed identity only holds within
a `(1 + |rate|)/200` rounding budget. -/
theorem claim_breakdown_cost_rounding (rate buffer : ℚ) (kvs : List (PyStr × Json))
    (m mx : ℚ) (line : FeatureBreakdown)
    (h1 : asNum (dictGetD kvs kMinK (dictGetD kvs kHoursK (Json.num 0))) = some m)
    (h2 : asNum (dictGetD kvs kMaxK (Json.num (m * (12/10)))) = some mx)
    (h3 : breakdownLine rate buffer (.obj kvs) = .ok line) :
    line.cost_min = pyRound 2 (m * (1 + buffer) * rate) ∧
    line.cost_max = pyRound 2 (mx * (1 + buffer) * rate) ∧
    |line.cost_min - line.time_min * rate| ≤ (1 + |rate|) / 200 ∧
    |line.cost_max - line.time_max * rate| ≤ (1 + |rate|) / 200 := by
  have hshape := breakdownLine_ok_shape rate buffer kvs m mx line h1 h2 h3
  obtain ⟨f1, f2, f3, f4⟩ := mkBreakdownLine_fields rate buffer line.feature
    line.description line.complexity m mx
  have etmin : line.time_min = pyRound 2 (m * (1 + buffer)) := by rw [hshape] at f1 ⊢; exact f1
  have etmax : line.time_max = pyRound 2 (mx * (1 + buffer)) := by rw [hshape] at f2 ⊢; exact f2
  have ecmin : line.cost_min = pyRound 2 (m * (1 + buffer) * rate) := by rw [hshape] at f3 ⊢; exact f3
  have ecmax : line.cost_max = pyRound 2 (mx * (1 + buffer) * rate) := by rw [hshape] at f4 ⊢; exact f4
  refine ⟨ecmin, ecmax, ?_, ?_⟩
  · rw [ecmin, etmin]
    exact round2_cost_bound (m * (1 + buffer)) rate
  · rw [ecmax, etmax]
    exact round2_cost_bound (mx * (1 + buffer)) rate

/-- C4 counterexample: for the raw min `1001/1200` (rate 30, buffer 20%),
the stored time is `round(1.001, 2) = 1.0` while the stored cost is
`round(1.001 × 30, 2) = 30.03 ≠ round(1.0 × 30, 2) = 30.0` — refuting
"cost_min = round(time_min × hourly_rate, 2) exactly, where time_min is the
line's stored (rounded) time field". -/
theorem claim_breakdown_cost_rounding_cx :
    (breakdownLine 30 (1/5) (.obj [(kMinK, Json.num (1001/1200))])).map
        (fun l => (l.time_min, l.cost_min)) = .ok (1, 3003/100) ∧
    pyRound 2 ((1:ℚ) * 30) = 30 ∧ ((3003:ℚ)/100) ≠ 30 := by
  refine ⟨by rfl, by decide, by norm_num⟩

/-- Feature dict used by the concrete engine witnesses. -/
def kvsSample : List (PyStr × Json) := [(kMinK, Json.num 10)]

/-- The line `create_breakdown` produces from `kvsSample` at rate 30 and
buffer 20%. -/
def lineSample : FeatureBreakdown :=
  ⟨kUnknownV, none, 66/5, 396, kMediumV, 12, 72/5, 360, 432⟩

/-- C4 witness at rate 30, buffer 20%, raw min 10 (max defaulting to 12). -/
theorem claim_breakdown_cost_rounding_witness :
    lineSample.cost_min = pyRound 2 ((10:ℚ) * (1 + 1/5) * 30) ∧
    lineSample.cost_max = pyRound 2 ((12:ℚ) * (1 + 1/5) * 30) ∧
    |lineSample.cost_min - lineSample.time_min * 30| ≤ (1 + |(30:ℚ)|) / 200 ∧
    |lineSample.cost_max - lineSample.time_max * 30| ≤ (1 + |(30:ℚ)|) / 200 :=
  claim_breakdown_cost_rounding 30 (1/5) kvsSample 10 12 lineSample
    (by decide) (by decide) (by rfl)

/-- Well-formedness of a feature dict for the totals invariants: the
effective min is nonnegative and at most the effective max. -/
def featOrderedB (f : Json) : Bool :=
  match f with
  | .obj kvs =>
    match asNum (dictGetD kvs kMinK (dictGetD kvs kHoursK (Json.num 0))) with
    | some m =>
      decide (0 ≤ m) &&
        match asNum (dictGetD kvs kMaxK (Json.num (m * (12/10)))) with
        | some mx => decide (m ≤ mx)
        | none => false
    | none => false
  | _ => false

/-- Field bounds of one breakdown line under nonnegative rate and buffer. -/
theorem breakdownLine_bounds (rate buffer : ℚ) (f : Json) (line : FeatureBreakdown)
    (hr : 0 ≤ rate) (hb : 0 ≤ buffer)
    (hok : breakdownLine rate buffer f = .ok line) (hw : featOrderedB f = true) :
    0 ≤ line.time_min ∧ line.time_min ≤ line.time_max ∧
    0 ≤ line.cost_min ∧ line.cost_min ≤ line.cost_max ∧
    0 ≤ line.time_max ∧ 0 ≤ line.cost_max := by
  cases f with
  | obj kvs =>
    unfold featOrderedB at hw
    simp only at hw
    cases ham : asNum (dictGetD kvs kMinK (dictGetD kvs kHoursK (Json.num 0))) with
    | none => rw [ham] at hw; cases hw
    | some m =>
      rw [ham] at hw
      simp only at hw
      cases hbm : asNum (dictGetD kvs kMaxK (Json.num (m * (12/10)))) with
      | none =>
        rw [hbm] at hw
        simp only [Bool.and_false] at hw
        cases hw
      | some mx =>
        rw [hbm] at hw
        simp only [Bool.and_eq_true, decide_eq_true_eq] at hw
        obtain ⟨hm, hmx⟩ := hw
        have hshape := breakdownLine_ok_shape rate buffer kvs m mx line ham hbm hok
        obtain ⟨f1, f2, f3, f4⟩ := mkBreakdownLine_fields rate buffer line.feature
          line.description line.complexity m mx
        rw [← hshape] at f1 f2 f3 f4
        have h1b : (0:ℚ) ≤ 1 + buffer := by linarith
        have htm : (0:ℚ) ≤ m * (1 + buffer) := mul_nonneg hm h1b
        have hmm : m * (1 + buffer) ≤ mx * (1 + buffer) :=
          mul_le_mul_of_nonneg_right hmx h1b
        have htM : (0:ℚ) ≤ mx * (1 + buffer) := le_trans htm hmm
        refine ⟨?_, ?_, ?_, ?_, ?_, ?_⟩
        · rw [f1]; exact pyRound_nonneg 2 htm
        · rw [f1, f2]; exact pyRound_mono 2 hmm
        · rw [f3]; exact pyRound_nonneg 2 (mul_nonneg htm hr)
        · rw [f3, f4]; exact pyRound_mono 2 (mul_le_mul_of_nonneg_right hmm hr)
        · rw [f2]; exact pyRound_nonneg 2 htM
        · rw [f4]; exact pyRound_nonneg 2 (mul_nonneg htM hr)
  | null => cases hw
  | bool b => cases hw
  | num q => cases hw
  | str s => cases hw
  | arr l => cases hw

/-- Field bounds across a whole breakdown. -/
theorem createBreakdown_bounds (rate buffer : ℚ) (fs : List Json)
    (lines : List FeatureBreakdown) (hr : 0 ≤ rate) (hb : 0 ≤ buffer)
    (hok : createBreakdown rate buffer fs = .ok lines)
    (hall : ∀ f ∈ fs, featOrderedB f = true) :
    ∀ line ∈ lines,
      0 ≤ line.time_min ∧ line.time_min ≤ line.time_max ∧
      0 ≤ line.cost_min ∧ line.cost_min ≤ line.cost_max ∧
      0 ≤ line.time_max ∧ 0 ≤ line.cost_max := by
  induction fs generalizing lines with
  | nil =>
    injection hok with hok
    subst hok
    intro line hline
    cases hline
  | cons f fs ih =>
    unfold createBreakdown at hok
    cases h1 : breakdownLine rate buffer f with
    | error e => rw [h1] at hok; cases hok
    | ok l =>
      rw [h1] at hok
      cases h2 : createBreakdown rate buffer fs with
      | error e => rw [h2] at hok; cases hok
      | ok rest =>
        rw [h2] at hok
        injection hok with hok
        subst hok
        intro line hline
        cases hline with
        | head =>
          exact breakdownLine_bounds rate buffer f l hr hb h1
            (hall f (List.mem_cons_self f fs))
        | tail _ hmem =>
          exact ih rest h2 (fun g hg => hall g (List.mem_cons_of_mem f hg)) line hmem

/-- C5 (corrected): `calculate_total` is the elementwise sum of the four
range fields, each rounded to two decimals, and is invariant under
reordering of the lines; the claimed ordering and nonnegativity of the
totals holds for breakdowns built (at nonnegative rate and buffer) from
features whose effective hours are nonnegative and ordered — not for every
normalized feature list, since normalization passes negative hour values
through unchanged. -/
theorem claim_totals_sums_invariants :
    (∀ b : List FeatureBreakdown, calculateTotal b =
        (pyRound 2 (b.map (·.time_min)).sum, pyRound 2 (b.map (·.time_max)).sum,
         pyRound 2 (b.map (·.cost_min)).sum, pyRound 2 (b.map (·.cost_max)).sum)) ∧
    (∀ b b' : List FeatureBreakdown, b.Perm b' → calculateTotal b = calculateTotal b') ∧
    (∀ (rate buffer : ℚ) (fs : List Json) (lines : List FeatureBreakdown),
      0 ≤ rate → 0 ≤ buffer → createBreakdown rate buffer fs = .ok lines →
      (∀ f ∈ fs, featOrderedB f = true) →
      0 ≤ (calculateTotal lines).1 ∧
      (calculateTotal lines).1 ≤ (calculateTotal lines).2.1 ∧
      0 ≤ (calculateTotal lines).2.2.1 ∧
      (calculateTotal lines).2.2.1 ≤ (calculateTotal lines).2.2.2 ∧
      0 ≤ (calculateTotal lines).2.1 ∧ 0 ≤ (calculateTotal lines).2.2.2) := by
  refine ⟨fun b => rfl, ?_, ?_⟩
  · intro b b' h
    unfold calculateTotal
    rw [(h.map (·.time_min)).sum_eq, (h.map (·.time_max)).sum_eq,
      (h.map (·.cost_min)).sum_eq, (h.map (·.cost_max)).sum_eq]
  · intro rate buffer fs lines hr hb hok hall
    have hbnd := createBreakdown_bounds rate buffer fs lines hr hb hok hall
    have htm : (0:ℚ) ≤ (lines.map (·.time_min)).sum := by
      apply List.sum_nonneg
      intro x hx
      obtain ⟨line, hline, rfl⟩ := List.mem_map.mp hx
      exact (hbnd line hline).1
    have htmx : (lines.map (·.time_min)).sum ≤ (lines.map (·.time_max)).sum := by
      apply List.sum_le_sum
      intro line hline
      exact (hbnd line hline).2.1
    have hcm : (0:ℚ) ≤ (lines.map (·.cost_min)).sum := by
      apply List.sum_nonneg
      intro x hx
      obtain ⟨line, hline, rfl⟩ := List.mem_map.mp hx
      exact (hbnd line hline).2.2.1
    have hcmx : (lines.map (·.cost_min)).sum ≤ (lines.map (·.cost_max)).sum := by
      apply List.sum_le_sum
      intro line hline
      exact (hbnd line hline).2.2.2.1
    have htM : (0:ℚ) ≤ (lines.map (·.time_max)).sum := by
      apply List.sum_nonneg
      intro x hx
      obtain ⟨line, hline, rfl⟩ := List.mem_map.mp hx
      exact (hbnd line hline).2.2.2.2.1
    have hcM : (0:ℚ) ≤ (lines.map (·.cost_max)).sum := by
      apply List.sum_nonneg
      intro x hx
      obtain ⟨line, hline, rfl⟩ := List.mem_map.mp hx
      exact (hbnd line hline).2.2.2.2.2
    exact ⟨pyRound_nonneg 2 htm, pyRound_mono 2 htmx, pyRound_nonneg 2 hcm,
      pyRound_mono 2 hcmx, pyRound_nonneg 2 htM, pyRound_nonneg 2 hcM⟩

/-- C5 counterexample: a feature list normalization passes through with a
negative range yields totals with `total_time_min = -12 > total_time_max =
-24` and all four totals negative — refuting the claimed invariants for
breakdowns built "from normalized features". -/
theorem claim_totals_sums_invariants_cx :
    ((normalizeFeatures [Json.obj [(kMinK, Json.num (-10)), (kMaxK, Json.num (-20))]]).bind
        (createBreakdown 30 (1/5))).map calculateTotal =
      .ok (-12, -24, -360, -720) ∧
    ¬ ((-12:ℚ) ≤ -24 ∧ (0:ℚ) ≤ -12) := by
  refine ⟨by rfl, by norm_num⟩

/-- C5 witness at rate 30, buffer 20%, one feature with min 10 / default max
12. -/
theorem claim_totals_sums_invariants_witness :
    0 ≤ (calculateTotal [lineSample]).1 ∧
    (calculateTotal [lineSample]).1 ≤ (calculateTotal [lineSample]).2.1 ∧
    0 ≤ (calculateTotal [lineSample]).2.2.1 ∧
    (calculateTotal [lineSample]).2.2.1 ≤ (calculateTotal [lineSample]).2.2.2 ∧
    0 ≤ (calculateTotal [lineSample]).2.1 ∧ 0 ≤ (calculateTotal [lineSample]).2.2.2 :=
  claim_totals_sums_invariants.2.2 30 (1/5) [Json.obj kvsSample] [lineSample]
    (by norm_num) (by norm_num) (by rfl) (by decide)

theorem dictGetD_set_ne (kvs : List (PyStr × Json)) (k k' : PyStr) (v d : Json)
    (h : (k' == k) = false) : dictGetD (dictSet kvs k v) k' d = dictGetD kvs k' d := by
  unfold dictGetD
  rw [dictGet?_set_ne kvs k k' v h]

theorem dictGetD_set_self (kvs : List (PyStr × Json)) (k : PyStr) (v d : Json) :
    dictGetD (dictSet kvs k v) k d = v := by
  unfold dictGetD
  rw [dictGet?_set_self]
  rfl

/-- C6 (confirmed): each line's times are the base min/max multiplied by
exactly `1 + buffer_percentage` (the `apply_buffer` factor) with no
complexity multiplier; overwriting `complexity_level` changes only the
stored complexity string, leaving every time and cost field identical; and
buffering is monotone for nonnegative time and buffer. -/
theorem claim_buffer_no_complexity :
    (∀ (rate buffer : ℚ) (kvs : List (PyStr × Json)) (m mx : ℚ) (line : FeatureBreakdown),
      asNum (dictGetD kvs kMinK (dictGetD kvs kHoursK (Json.num 0))) = some m →
      asNum (dictGetD kvs kMaxK (Json.num (m * (12/10)))) = some mx →
      breakdownLine rate buffer (.obj kvs) = .ok line →
      line.time_min = pyRound 2 (applyBuffer buffer m) ∧
      line.time_max = pyRound 2 (applyBuffer buffer mx) ∧
      applyBuffer buffer m = m * (1 + buffer) ∧
      applyBuffer buffer mx = mx * (1 + buffer)) ∧
    (∀ (rate buffer : ℚ) (kvs : List (PyStr × Json)) (c : PyStr) (line : FeatureBreakdown),
      breakdownLine rate buffer (.obj kvs) = .ok line →
      breakdownLine rate buffer (.obj (dictSet kvs kComplexityK (.str c))) =
        .ok { line with complexity := c }) ∧
    (∀ buffer t : ℚ, 0 ≤ t → 0 ≤ buffer → t ≤ applyBuffer buffer t) := by
  refine ⟨?_, ?_, ?_⟩
  · intro rate buffer kvs m mx line h1 h2 h3
    have hshape := breakdownLine_ok_shape rate buffer kvs m mx line h1 h2 h3
    obtain ⟨f1, f2, _, _⟩ := mkBreakdownLine_fields rate buffer line.feature
      line.description line.complexity m mx
    rw [← hshape] at f1 f2
    exact ⟨by rw [f1]; rfl, by rw [f2]; rfl, rfl, rfl⟩
  · intro rate buffer kvs c line h
    have eH : ∀ d, dictGetD (dictSet kvs kComplexityK (.str c)) kHoursK d =
        dictGetD kvs kHoursK d :=
      fun d => dictGetD_set_ne kvs kComplexityK kHoursK (.str c) d (by decide)
    have eMin : ∀ d, dictGetD (dictSet kvs kComplexityK (.str c)) kMinK d =
        dictGetD kvs kMinK d :=
      fun d => dictGetD_set_ne kvs kComplexityK kMinK (.str c) d (by decide)
    have eMax : ∀ d, dictGetD (dictSet kvs kComplexityK (.str c)) kMaxK d =
        dictGetD kvs kMaxK d :=
      fun d => dictGetD_set_ne kvs kComplexityK kMaxK (.str c) d (by decide)
    have eName : ∀ d, dictGetD (dictSet kvs kComplexityK (.str c)) kNameK d =
        dictGetD kvs kNameK d :=
      fun d => dictGetD_set_ne kvs kComplexityK kNameK (.str c) d (by decide)
    have eDesc : dictGet? (dictSet kvs kComplexityK (.str c)) kDescriptionK =
        dictGet? kvs kDescriptionK :=
      dictGet?_set_ne kvs kComplexityK kDescriptionK (.str c) (by decide)
    have eCpx : ∀ d, dictGetD (dictSet kvs kComplexityK (.str c)) kComplexityK d =
        .str c :=
      fun d => dictGetD_set_self kvs kComplexityK (.str c) d
    unfold breakdownLine at h ⊢
    simp only at h ⊢
    simp only [eH, eMin, eMax, eName, eCpx, eDesc]
    cases ham : asNum (dictGetD kvs kMinK (dictGetD kvs kHoursK (Json.num 0))) with
    | none => rw [ham] at h; cases h
    | some m =>
      rw [ham] at h
      simp only at h
      simp only []
      cases hbm : asNum (dictGetD kvs kMaxK (Json.num (m * (12/10)))) with
      | none => rw [hbm] at h; cases h
      | some mx =>
        rw [hbm] at h
        simp only at h
        cases hcpx : dictGetD kvs kComplexityK (Json.str kMediumV) with
        | str cpx0 =>
          rw [hcpx] at h
          cases hnm : dictGetD kvs kNameK (Json.str kUnknownV) with
          | str nm =>
            rw [hnm] at h
            cases hds : dictGet? kvs kDescriptionK with
            | none =>
              rw [hds] at h
              injection h with h
              rw [← h]
              rfl
            | some dv =>
              rw [hds] at h
              cases dv with
              | str ds =>
                injection h with h
                rw [← h]
                rfl
              | null =>
                injection h with h
                rw [← h]
                rfl
              | bool b => cases h
              | num q => cases h
              | arr l => cases h
              | obj o => cases h
          | null => rw [hnm] at h; cases h
          | bool b => rw [hnm] at h; cases h
          | num q => rw [hnm] at h; cases h
          | arr l => rw [hnm] at h; cases h
          | obj o => rw [hnm] at h; cases h
        | null => rw [hcpx] at h; cases h
        | bool b => rw [hcpx] at h; cases h
        | num q => rw [hcpx] at h; cases h
        | arr l => rw [hcpx] at h; cases h
        | obj o => rw [hcpx] at h; cases h
  · intro buffer t ht hb
    unfold applyBuffer
    nlinarith

/-- C6 witness: the concrete line from `kvsSample` at rate 30 and buffer
20%, a complexity overwrite to "complex", and monotonicity at `t = 8`,
buffer 20%. -/
theorem claim_buffer_no_complexity_witness :
    (lineSample.time_min = pyRound 2 (applyBuffer (1/5) 10) ∧
     lineSample.time_max = pyRound 2 (applyBuffer (1/5) 12) ∧
     applyBuffer (1/5) 10 = (10:ℚ) * (1 + 1/5) ∧
     applyBuffer (1/5) 12 = (12:ℚ) * (1 + 1/5)) ∧
    (breakdownLine 30 (1/5) (.obj (dictSet kvsSample kComplexityK (.str kComplexV))) =
      .ok { lineSample with complexity := kComplexV }) ∧
    ((8:ℚ) ≤ applyBuffer (1/5) 8) :=
  ⟨claim_buffer_no_complexity.1 30 (1/5) kvsSample 10 12 lineSample
      (by decide) (by decide) (by rfl),
   claim_buffer_no_complexity.2.1 30 (1/5) kvsSample kComplexV lineSample (by rfl),
   claim_buffer_no_complexity.2.2 (1/5) 8 (by norm_num) (by norm_num)⟩

/-! ## `app/services/vector_store.py` — `VectorStore.get_relevant_context`

`search` wraps the external Qdrant backend (returning `[]` on any error), so
the formatted result list is the model's input; `get_relevant_context` is
the repository code that assembles the context string from it. -/

/-- One formatted result of `VectorStore.search`. -/
structure SearchResult where
  text : PyStr
  doc_id : PyStr
  score : ℚ

def sDocHdrL : PyStr := "[Doc: ".data

def sDocHdrM : PyStr := " | Relevance: ".data

def sDocHdrR : PyStr := "]\n".data

def sVsSep : PyStr := "\n\n---\n\n".data

/-- The `[Doc: {doc_id} | Relevance: {score:.2f}]\n` header prefixed to each
passage. -/
def vsHeader (r : SearchResult) : PyStr :=
  sDocHdrL ++ r.doc_id ++ sDocHdrM ++ fmt2 r.score ++ sDocHdrR

/-- The result loop of `get_relevant_context`: `current_length` counts only
raw passage text; a passage that fits is appended whole, otherwise the
remainder of the budget is flushed (only when more than 300 characters
remain) and the loop breaks. -/
def grcLoop (maxLen : ℕ) : List SearchResult → ℕ → List PyStr
  | [], _ => []
  | r :: rest, cur =>
    if cur + r.text.length ≤ maxLen then
      (vsHeader r ++ r.text) :: grcLoop maxLen rest (cur + r.text.length)
    else
      if 300 < maxLen - cur then [vsHeader r ++ r.text.take (maxLen - cur)] else []

/-- `VectorStore.get_relevant_context` over the formatted search results. -/
def getRelevantContext (results : List SearchResult) (maxLen : ℕ) : PyStr :=
  if results.isEmpty then [] else pyJoin sVsSep (grcLoop maxLen results 0)

/-! ## `app/services/knowledge_base.py` — `KnowledgeBase.get_context_for_query` -/

/-- The knowledge base state after startup: the cached document dict in
insertion order, the cached `Estimates.txt` text (`chatgpt_examples`), and
the vector store — `none` when initialization failed, otherwise carrying
the search results its backend returns for the query of the current
request. -/
structure KBModel where
  documents : List (PyStr × PyStr)
  chatgpt_examples : PyStr
  vector_store : Option (List SearchResult)

def sTeam : PyStr := "team".data

def sDeveloper : PyStr := "developer".data

def sEstimate : PyStr := "estimate".data

def sFromHdrL : PyStr := "=== From ".data

def sFromHdrR : PyStr := " ===\n".data

def sNN : PyStr := "\n\n".data

/-- The per-document score of the keyword fallback: one point per query
word (longer than 2 characters) occurring in the lowercased document, plus
2 for each of "team", "developer", "estimate" occurring in both the
lowercased query and the document. -/
def kwScore (query_lower : PyStr) (query_words : List PyStr) (text_lower : PyStr) : ℕ :=
  let base := (query_words.filter (fun w => infixB w text_lower)).length
  let b1 := if infixB sTeam query_lower && infixB sTeam text_lower then 2 else 0
  let b2 := if infixB sDeveloper query_lower && infixB sDeveloper text_lower then 2 else 0
  let b3 := if infixB sEstimate query_lower && infixB sEstimate text_lower then 2 else 0
  base + b1 + b2 + b3

/-- `=== From {doc_id} ===\n{text[:3000]}`. -/
def fmtDocPart (doc_id text : PyStr) : PyStr :=
  sFromHdrL ++ doc_id ++ sFromHdrR ++ text.take 3000

/-- The document loop of the keyword fallback: append the formatted top
documents until the joined parts exceed the budget (the crossing part is
kept; the final join is hard-truncated by the caller). -/
def kbLoop (maxLen : ℕ) : List (ℕ × PyStr × PyStr) → List PyStr → List PyStr
  | [], acc => acc
  | (_, d, t) :: rest, acc =>
    let acc' := acc ++ [fmtDocPart d t]
    if maxLen < (pyJoin sNN acc').length then acc' else kbLoop maxLen rest acc'

/-- `KnowledgeBase.get_context_for_query`: the vector path when it yields a
non-empty context, otherwise the keyword fallback over the cached
documents, otherwise the cached `Estimates.txt` text. -/
def getContextForQuery (kb : KBModel) (query : PyStr) (maxLen : ℕ) : PyStr :=
  let vctx :=
    match kb.vector_store with
    | some results => getRelevantContext results maxLen
    | none => []
  if vctx.isEmpty then
    let query_lower := pyLower query
    let query_words := (pySplitWs query_lower).filter (fun w => 2 < w.length)
    let doc_scores := kb.documents.foldl (fun acc dt =>
      let mcount := kwScore query_lower query_words (pyLower dt.2)
      if 0 < mcount then acc ++ [(mcount, dt.1, dt.2)] else acc) []
    let sorted := sortDescBy (fun x => (x.1 : ℤ)) doc_scores
    let parts := kbLoop maxLen (sorted.take 8) []
    if parts.isEmpty then kb.chatgpt_examples.take maxLen
    else (pyJoin sNN parts).take maxLen
  else vctx

theorem take_length_le (s : PyStr) (n : ℕ) : (s.take n).length ≤ n := by
  rw [List.length_take]
  exact min_le_left _ _

/-- C7 (corrected): whenever the vector path yields no context (vector store
unavailable or no search results), the context returned by
`get_context_for_query` — keyword fallback or last-resort primary-reference
text — is hard-truncated to the requested budget.  The vector path itself
counts only raw passage text against the budget, so its headers and
separators can push the returned string past the budget (see the
counterexample). -/
theorem claim_context_budget (kb : KBModel) (query : PyStr) (maxLen : ℕ)
    (hvec : ∀ rs, kb.vector_store = some rs → getRelevantContext rs maxLen = []) :
    (getContextForQuery kb query maxLen).length ≤ maxLen := by
  unfold getContextForQuery
  cases hvs : kb.vector_store with
  | none =>
    simp only [List.isEmpty_nil, if_true]
    split
    · exact take_length_le _ _
    · exact take_length_le _ _
  | some rs =>
    simp only []
    rw [hvec rs hvs]
    simp only [List.isEmpty_nil, if_true]
    split
    · exact take_length_le _ _
    · exact take_length_le _ _

def sDigits : PyStr := "0123456789".data

def sDocD : PyStr := "d".data

/-- C7 counterexample: one search result whose passage text is exactly the
10-character budget; the passage is accepted (only raw text is counted) but
the `[Doc: d | Relevance: 0.00]\n` header makes the returned context 37
characters long — more than the requested budget of 10. -/
theorem claim_context_budget_cx :
    (getContextForQuery ⟨[], [], some [⟨sDigits, sDocD, 0⟩]⟩ sDocD 10).length = 37 ∧
    ¬ (37 ≤ 10) := by
  refine ⟨by rfl, by norm_num⟩

/-- C7 witness: an empty knowledge base without a vector store returns at
most the budget. -/
theorem claim_context_budget_witness :
    (getContextForQuery ⟨[], [], none⟩ sDocD 10).length ≤ 10 :=
  claim_context_budget ⟨[], [], none⟩ sDocD 10 (fun rs h => by cases h)

/-! ## Claim C9 — the keyword fallback, stated from the spec's words -/

/-- The fixed domain-priority terms of the fallback scorer. -/
def priorityTerms : List PyStr := [sTeam, sDeveloper, sEstimate]

/-- Spec-side scorer: one point per query word occurring in the document,
plus 2 per domain-priority term found in both query and document. -/
def specScore (ql : PyStr) (qws : List PyStr) (tl : PyStr) : ℕ :=
  (qws.filter (fun w => infixB w tl)).length +
    2 * ((priorityTerms.filter (fun t => infixB t ql && infixB t tl)).length)

theorem kwScore_eq_specScore (ql : PyStr) (qws : List PyStr) (tl : PyStr) :
    kwScore ql qws tl = specScore ql qws tl := by
  unfold kwScore specScore priorityTerms
  by_cases h1 : (infixB sTeam ql && infixB sTeam tl) = true <;>
    by_cases h2 : (infixB sDeveloper ql && infixB sDeveloper tl) = true <;>
      by_cases h3 : (infixB sEstimate ql && infixB sEstimate tl) = true <;>
        simp only [Bool.not_eq_true] at h1 h2 h3 <;>
          simp [h1, h2, h3, List.filter] <;> omega

/-- Spec-side greedy concatenation, continued: include the next part only
when the text assembled so far has not yet reached the budget. -/
def concatMoreBudget (maxLen : ℕ) (sep : PyStr) : List PyStr → ℕ → List PyStr
  | [], _ => []
  | p :: rest, cur =>
    if maxLen < cur then []
    else p :: concatMoreBudget maxLen sep rest (cur + sep.length + p.length)

/-- Spec-side greedy concatenation: parts are taken in order until the
joined text reaches the budget; the part that crosses it is kept (the final
string is hard-truncated afterwards). -/
def concatUntilBudget (maxLen : ℕ) (sep : PyStr) : List PyStr → List PyStr
  | [] => []
  | p :: rest => p :: concatMoreBudget maxLen sep rest p.length

/-- The keyword fallback as the (amended) claim describes it: tokenize the
lowercased query into words longer than 2 characters; score every cached
document; keep only documents with a positive score, ranked descending by
score (stable); take the top 8; cap each document's contribution at 3000
characters under its source header; concatenate until the budget is
reached and hard-truncate; with no positively scoring document, fall back
to the cached primary-reference text truncated to the budget. -/
def specKeywordContext (docs : List (PyStr × PyStr)) (examples query : PyStr)
    (maxLen : ℕ) : PyStr :=
  let ql := pyLower query
  let qws := (pySplitWs ql).filter (fun w => 2 < w.length)
  let scored := (docs.map (fun dt => (specScore ql qws (pyLower dt.2), dt.1, dt.2))).filter
    (fun x => 0 < x.1)
  let top := (sortDescBy (fun x => (x.1 : ℤ)) scored).take 8
  let parts := concatUntilBudget maxLen sNN (top.map (fun x => fmtDocPart x.2.1 x.2.2))
  if parts.isEmpty then examples.take maxLen else (pyJoin sNN parts).take maxLen

/-- The fallback exactly as the original claim words it — without the
positive-score gate or the primary-reference last resort: every cached
document participates in the ranking. -/
def claimKeywordContext (docs : List (PyStr × PyStr)) (query : PyStr)
    (maxLen : ℕ) : PyStr :=
  let ql := pyLower query
  let qws := (pySplitWs ql).filter (fun w => 2 < w.length)
  let scored := docs.map (fun dt => (specScore ql qws (pyLower dt.2), dt.1, dt.2))
  let top := (sortDescBy (fun x => (x.1 : ℤ)) scored).take 8
  let parts := concatUntilBudget maxLen sNN (top.map (fun x => fmtDocPart x.2.1 x.2.2))
  (pyJoin sNN parts).take maxLen

theorem pyJoin_append_singleton (sep : PyStr) (acc : List PyStr) (p : PyStr)
    (h : acc ≠ []) : pyJoin sep (acc ++ [p]) = pyJoin sep acc ++ sep ++ p := by
  induction acc with
  | nil => exact absurd rfl h
  | cons a rest ih =>
    cases rest with
    | nil => rfl
    | cons b rest' =>
      show a ++ sep ++ pyJoin sep ((b :: rest') ++ [p]) =
        a ++ sep ++ pyJoin sep (b :: rest') ++ sep ++ p
      rw [ih (by simp)]
      simp [List.append_assoc]

/-- The source's accumulated document loop equals the spec-side greedy
concatenation once started. -/
theorem kbLoop_eq_concatMore (maxLen : ℕ) (l : List (ℕ × PyStr × PyStr))
    (acc : List PyStr) (hacc : acc ≠ [])
    (hlen : (pyJoin sNN acc).length ≤ maxLen) :
    kbLoop maxLen l acc =
      acc ++ concatMoreBudget maxLen sNN (l.map (fun x => fmtDocPart x.2.1 x.2.2))
        (pyJoin sNN acc).length := by
  induction l generalizing acc with
  | nil => simp [kbLoop, concatMoreBudget]
  | cons x rest ih =>
    obtain ⟨m, d, t⟩ := x
    have hjoin := pyJoin_append_singleton sNN acc (fmtDocPart d t) hacc
    have hjlen : (pyJoin sNN (acc ++ [fmtDocPart d t])).length =
        (pyJoin sNN acc).length + sNN.length + (fmtDocPart d t).length := by
      rw [hjoin]
      simp only [List.length_append]
    unfold kbLoop
    simp only [List.map_cons]
    rw [concatMoreBudget]
    rw [if_neg (not_lt.mpr hlen)]
    by_cases hb : maxLen < (pyJoin sNN (acc ++ [fmtDocPart d t])).length
    · rw [if_pos hb]
      cases rest with
      | nil => simp [concatMoreBudget]
      | cons y rest' =>
        simp only [List.map_cons]
        rw [concatMoreBudget]
        rw [if_pos (by rw [← hjlen]; exact hb)]
    · rw [if_neg hb]
      rw [ih (acc ++ [fmtDocPart d t]) (by simp) (not_lt.mp hb)]
      rw [hjlen]
      simp [List.append_assoc]

/-- The source's document loop started empty equals the spec-side greedy
concatenation. -/
theorem kbLoop_eq_concatUntil (maxLen : ℕ) (l : List (ℕ × PyStr × PyStr)) :
    kbLoop maxLen l [] =
      concatUntilBudget maxLen sNN (l.map (fun x => fmtDocPart x.2.1 x.2.2)) := by
  cases l with
  | nil => rfl
  | cons x rest =>
    obtain ⟨m, d, t⟩ := x
    unfold kbLoop
    simp only [List.nil_append, List.map_cons]
    rw [concatUntilBudget]
    by_cases hb : maxLen < (pyJoin sNN [fmtDocPart d t]).length
    · rw [if_pos hb]
      cases rest with
      | nil => simp [concatMoreBudget]
      | cons y rest' =>
        simp only [List.map_cons]
        rw [concatMoreBudget]
        rw [if_pos (by simpa [pyJoin] using hb)]
    · rw [if_neg hb]
      rw [kbLoop_eq_concatMore maxLen rest [fmtDocPart d t] (by simp)
        (by simpa [pyJoin] using not_lt.mp hb)]
      simp [pyJoin]

/-- The source's append-if-positive fold over the documents equals
filtering the mapped score triples. -/
theorem foldl_scores_eq (docs : List (PyStr × PyStr)) (score : PyStr × PyStr → ℕ)
    (acc : List (ℕ × PyStr × PyStr)) :
    docs.foldl (fun acc dt =>
        if 0 < score dt then acc ++ [(score dt, dt.1, dt.2)] else acc) acc =
      acc ++ (docs.map (fun dt => (score dt, dt.1, dt.2))).filter (fun x => 0 < x.1) := by
  induction docs generalizing acc with
  | nil => simp
  | cons dt rest ih =>
    simp only [List.foldl_cons, List.map_cons, List.filter_cons]
    by_cases h : 0 < score dt
    · rw [if_pos h]
      rw [ih]
      simp [h, List.append_assoc]
    · rw [if_neg h]
      rw [ih]
      simp [h]

/-- C9 (corrected): with the vector store unavailable, the keyword fallback
of `get_context_for_query` is exactly the spec-side description — scoring
by query words longer than 2 characters plus a +2 bonus per domain-priority
term found in both query and document, stable descending ranking, top 8,
3000-character per-document cap, greedy concatenation to the budget and
hard truncation — amended with the positive-score gate: only documents with
a positive score participate, and with none the cached primary-reference
text is returned instead. -/
theorem claim_keyword_fallback (kb : KBModel) (query : PyStr) (maxLen : ℕ)
    (hvs : kb.vector_store = none) :
    getContextForQuery kb query maxLen =
      specKeywordContext kb.documents kb.chatgpt_examples query maxLen := by
  unfold getContextForQuery specKeywordContext
  rw [hvs]
  simp only [List.isEmpty_nil, if_true]
  rw [foldl_scores_eq kb.documents
    (fun dt => kwScore (pyLower query)
      ((pySplitWs (pyLower query)).filter fun w => decide (2 < w.length)) (pyLower dt.2)) []]
  simp only [List.nil_append, kwScore_eq_specScore, kbLoop_eq_concatUntil]

def sZzz : PyStr := "zzz".data

def sPayment : PyStr := "payment".data

def sEx : PyStr := "EX".data

/-- C9 counterexample: a single cached document sharing no words with the
query scores 0; the source excludes it entirely and returns the cached
primary-reference text, while the fallback as the claim words it (ranking
every document, top 8) would return the document's formatted text. -/
theorem claim_keyword_fallback_cx :
    getContextForQuery ⟨[(sDocD, sZzz)], sEx, none⟩ sPayment 100 = sEx ∧
    claimKeywordContext [(sDocD, sZzz)] sPayment 100 =
      sFromHdrL ++ sDocD ++ sFromHdrR ++ sZzz ∧
    sEx ≠ sFromHdrL ++ sDocD ++ sFromHdrR ++ sZzz := by
  refine ⟨by rfl, by rfl, by decide⟩

/-- C9 witness on a concrete knowledge base without a vector store. -/
theorem claim_keyword_fallback_witness :
    getContextForQuery ⟨[(sDocD, sZzz)], sEx, none⟩ sPayment 100 =
      specKeywordContext [(sDocD, sZzz)] sEx sPayment 100 :=
  claim_keyword_fallback ⟨[(sDocD, sZzz)], sEx, none⟩ sPayment 100 rfl

/-! ## `OpenAIService._generate_fallback_response` — claim C8 -/

def sFbIntro : PyStr := "Based on your requirements:\n\n".data

def sStars : PyStr := "**".data

def sStarsColon : PyStr := "**: ".data

def sHoursSp : PyStr := " hours, ".data

def sDollar : PyStr := "$".data

def sNl : PyStr := "\n".data

def sTotalHdr : PyStr := "\n**Total**: ".data

def sTotalTail : PyStr := "Total**: ".data

def sTimelineHdr : PyStr := "**Timeline**: ".data

def sAssumpHdr : PyStr := "**Assumptions**:\n".data

def sDash : PyStr := "- ".data

/-- One `**{feature}**: {time_hours} hours, ${cost:.2f}\n` line of the
fallback template. -/
def fallbackLine (item : FeatureBreakdown) : PyStr :=
  sStars ++ item.feature ++ sStarsColon ++ pyFloatRepr item.time_hours ++
    sHoursSp ++ sDollar ++ fmt2 item.cost ++ sNl

/-- `OpenAIService._generate_fallback_response`: the deterministic template
used when no OpenAI client is configured (or the narrative call failed). -/
def generateFallbackResponse (breakdown : List FeatureBreakdown)
    (total_time total_cost : ℚ) (assumptions : List PyStr) (timeline : PyStr) : PyStr :=
  sFbIntro ++
    (breakdown.map fallbackLine).join ++
    sTotalHdr ++ pyFloatRepr total_time ++ sHoursSp ++ sDollar ++ fmt2 total_cost ++ sNl ++
    sTimelineHdr ++ timeline ++ sNN ++
    sAssumpHdr ++
    ((assumptions.take 4).map (fun a => sDash ++ a ++ sNl)).join

theorem infixB_of_parts (n s t h : PyStr) (he : h = s ++ n ++ t) :
    infixB n h = true := by
  rw [he]
  exact infixB_append n s t

/-- C8 (corrected): the fallback narrative contains every feature name from
the breakdown, the exact total time figure and the exact dollar-formatted
total cost figure — but, contrary to the claim, it is built of literal
markdown bold markers, so the two-character sequence `**` always occurs in
it. -/
theorem claim_fallback_narrative (breakdown : List FeatureBreakdown)
    (total_time total_cost : ℚ) (assumptions : List PyStr) (timeline : PyStr) :
    (∀ item ∈ breakdown,
      infixB item.feature
        (generateFallbackResponse breakdown total_time total_cost assumptions timeline) = true) ∧
    infixB (pyFloatRepr total_time)
      (generateFallbackResponse breakdown total_time total_cost assumptions timeline) = true ∧
    infixB (sDollar ++ fmt2 total_cost)
      (generateFallbackResponse breakdown total_time total_cost assumptions timeline) = true ∧
    infixB sStars
      (generateFallbackResponse breakdown total_time total_cost assumptions timeline) = true := by
  refine ⟨?_, ?_, ?_, ?_⟩
  · intro item hitem
    obtain ⟨l1, l2, rfl⟩ := List.append_of_mem hitem
    apply infixB_of_parts item.feature
      (sFbIntro ++ (l1.map fallbackLine).join ++ sStars)
      (sStarsColon ++ pyFloatRepr item.time_hours ++ sHoursSp ++ sDollar ++
        fmt2 item.cost ++ sNl ++ (l2.map fallbackLine).join ++
        sTotalHdr ++ pyFloatRepr total_time ++ sHoursSp ++ sDollar ++ fmt2 total_cost ++ sNl ++
        sTimelineHdr ++ timeline ++ sNN ++ sAssumpHdr ++
        ((assumptions.take 4).map (fun a => sDash ++ a ++ sNl)).join)
    simp [generateFallbackResponse, fallbackLine, List.append_assoc]
  · apply infixB_of_parts (pyFloatRepr total_time)
      (sFbIntro ++ (breakdown.map fallbackLine).join ++ sTotalHdr)
      (sHoursSp ++ sDollar ++ fmt2 total_cost ++ sNl ++
        sTimelineHdr ++ timeline ++ sNN ++ sAssumpHdr ++
        ((assumptions.take 4).map (fun a => sDash ++ a ++ sNl)).join)
    simp [generateFallbackResponse, List.append_assoc]
  · apply infixB_of_parts (sDollar ++ fmt2 total_cost)
      (sFbIntro ++ (breakdown.map fallbackLine).join ++ sTotalHdr ++
        pyFloatRepr total_time ++ sHoursSp)
      (sNl ++ sTimelineHdr ++ timeline ++ sNN ++ sAssumpHdr ++
        ((assumptions.take 4).map (fun a => sDash ++ a ++ sNl)).join)
    simp [generateFallbackResponse, List.append_assoc]
  · have hdecomp : sTotalHdr = sNl ++ (sStars ++ sTotalTail) := by rfl
    apply infixB_of_parts sStars
      (sFbIntro ++ (breakdown.map fallbackLine).join ++ sNl)
      (sTotalTail ++ pyFloatRepr total_time ++ sHoursSp ++ sDollar ++ fmt2 total_cost ++ sNl ++
        sTimelineHdr ++ timeline ++ sNN ++ sAssumpHdr ++
        ((assumptions.take 4).map (fun a => sDash ++ a ++ sNl)).join)
    rw [generateFallbackResponse, hdecomp]
    simp [List.append_assoc]

def sSoon : PyStr := "soon".data

/-- C8 counterexample: on a concrete one-line breakdown the fallback
narrative does contain the literal markdown bold marker pair, refuting
"contains no literal markdown bold markers (`**`)". -/
theorem claim_fallback_narrative_cx :
    infixB sStars (generateFallbackResponse [lineSample] (66/5) 396 [] sSoon) = true := by
  decide

/-- C8 witness on the concrete one-line breakdown. -/
theorem claim_fallback_narrative_witness :
    infixB lineSample.feature
      (generateFallbackResponse [lineSample] (66/5) 396 [] sSoon) = true ∧
    infixB (pyFloatRepr (66/5))
      (generateFallbackResponse [lineSample] (66/5) 396 [] sSoon) = true ∧
    infixB (sDollar ++ fmt2 396)
      (generateFallbackResponse [lineSample] (66/5) 396 [] sSoon) = true :=
  ⟨(claim_fallback_narrative [lineSample] (66/5) 396 [] sSoon).1 lineSample
      (List.mem_cons_self _ _),
   (claim_fallback_narrative [lineSample] (66/5) 396 [] sSoon).2.1,
   (claim_fallback_narrative [lineSample] (66/5) 396 [] sSoon).2.2.1⟩

/-! ## `app/services/openai_service.py` — `OpenAIService`

The LLM provider is a capability: each `chat.completions.create` round trip
consumes one entry of a response stream `o : Nat → Except Unit PyStr`
(`error` = the call raised, `ok raw` = the returned message content).  The
prompt strings sent to the provider are not modelled: under the stream
model they cannot influence the value a method returns, only the control
flow after the response does.  `client : Option Unit` models
`self.client` (`none` when `OPENAI_API_KEY` is unset). -/

abbrev Oracle := Nat → Except Unit PyStr

def sBtJson : PyStr := "```json".data

def sBt : PyStr := "```".data

/-- Length-fueled worker for `pyReSubLit`. -/
def subFencesAux (pat : PyStr) : ℕ → PyStr → PyStr
  | 0, s => s
  | _+1, [] => []
  | fuel+1, c :: rest =>
    if prefixB pat (c :: rest) then
      subFencesAux pat fuel (((c :: rest).drop pat.length).dropWhile isPyWs)
    else c :: subFencesAux pat fuel rest

/-- Python `re.sub(pat + r"\s*", "", s)` for a literal, non-empty `pat`:
remove each non-overlapping leftmost occurrence of the pattern together
with the whitespace that follows it. -/
def pyReSubLit (pat s : PyStr) : PyStr := subFencesAux pat (s.length + 1) s

/-- The `strip` / code-fence cleanup applied to the main extraction
response (`.strip()`, drop ```` ```json ````, drop ```` ``` ````, `.strip()`
again). -/
def mainClean (raw : PyStr) : PyStr :=
  pyStrip (pyReSubLit sBt (pyReSubLit sBtJson (pyStrip raw)))

/-- The cleanup used by the helper extractors (no trailing strip). -/
def helperClean (raw : PyStr) : PyStr :=
  pyReSubLit sBt (pyReSubLit sBtJson (pyStrip raw))

/-- `re.search(r"\[[\s\S]*?\]", s)`: the span from the first `[` to the
first `]` after it. -/
def firstBracketSpan (s : PyStr) : Option PyStr :=
  match s.findIdx? (· == '[') with
  | none => none
  | some i =>
    match (s.drop (i+1)).findIdx? (· == ']') with
    | none => none
    | some j => some ((s.drop i).take (j + 2))

/-- Occurrences of a character. -/
def countCh (c : Char) (s : PyStr) : ℕ := (s.filter (· == c)).length

/-- One attempted match of `r"\{[^{}]*(?:\{[^{}]*\}[^{}]*)*\}"` starting at
the current position: a brace-balanced region of nesting depth at most
two.  Returns the matched span and the rest of the input. -/
def objMatchAux : ℕ → PyStr → PyStr → Option (PyStr × PyStr)
  | 0, _, _ => none
  | fuel+1, acc, input =>
    let a := input.takeWhile (fun c => !(c == '{' || c == '}'))
    let rest := input.dropWhile (fun c => !(c == '{' || c == '}'))
    match rest with
    | '}' :: r => some (acc ++ a ++ ['}'], r)
    | '{' :: r =>
      let b := r.takeWhile (fun c => !(c == '{' || c == '}'))
      match r.dropWhile (fun c => !(c == '{' || c == '}')) with
      | '}' :: r2 => objMatchAux fuel (acc ++ a ++ ['{'] ++ b ++ ['}']) r2
      | _ => none
    | _ => none

/-- Try the object pattern at the head of `s`. -/
def objMatchAt (s : PyStr) : Option (PyStr × PyStr) :=
  match s with
  | '{' :: r => objMatchAux (s.length + 1) ['{'] r
  | _ => none

/-- Worker for `objFindall`. -/
def objFindallAux : ℕ → PyStr → List PyStr
  | 0, _ => []
  | _+1, [] => []
  | fuel+1, c :: rest =>
    if c == '{' then
      match objMatchAt (c :: rest) with
      | some (m, r) => m :: objFindallAux fuel r
      | none => objFindallAux fuel rest
    else objFindallAux fuel rest

/-- `re.findall` of the balanced-object pattern: non-overlapping matches,
left to right. -/
def objFindall (s : PyStr) : List PyStr := objFindallAux (s.length + 1) s

def sHour : PyStr := "hour".data

/-- Dash alternatives of the hour-range pattern. -/
def isDashCh (c : Char) : Bool := c == '-' || c == '–' || c == '—'

/-- Try `r"(\d+)\s*[-–—]\s*(\d+)\s*hours?"` (ignoring case) at the head of
`s`, returning the two digit groups. -/
def hourMatchAt (s : PyStr) : Option (ℕ × ℕ) :=
  let d1 := s.takeWhile Char.isDigit
  if d1.isEmpty then none
  else
    match (s.dropWhile Char.isDigit).dropWhile isPyWs with
    | c :: r2 =>
      if isDashCh c then
        let r3 := r2.dropWhile isPyWs
        let d2 := r3.takeWhile Char.isDigit
        if d2.isEmpty then none
        else
          let r4 := (r3.dropWhile Char.isDigit).dropWhile isPyWs
          if prefixB sHour (pyLower r4) then some (digitsToNat d1, digitsToNat d2)
          else none
      else none
    | [] => none

/-- Worker for `hourSearch`. -/
def hourSearchAux : ℕ → PyStr → Option (ℕ × ℕ)
  | 0, _ => none
  | _+1, [] => none
  | fuel+1, c :: rest =>
    match hourMatchAt (c :: rest) with
    | some g => some g
    | none => hourSearchAux fuel rest

/-- `re.search` of the hour-range pattern: leftmost match. -/
def hourSearch (s : PyStr) : Option (ℕ × ℕ) := hourSearchAux (s.length + 1) s

def kVagueK : PyStr := "is_vague_or_irrelevant".data

def sTrue : PyStr := "true".data

def sVague : PyStr := "vague".data

def sIrrelevant : PyStr := "irrelevant".data

def kFeaturesK : PyStr := "features".data

def kHoursJK : PyStr := "hours".data

def kCategoryK : PyStr := "category".data

def sBasedOnEst : PyStr := "Based on Estimates.txt".data

def sBasedOnEstD : PyStr := "Based on Estimates.txt (direct fallback)".data

def sFeatureDev : PyStr := "Feature Development".data

def sGenModelKnow : PyStr := "Estimate generated from model knowledge".data

def sIntegrationV : PyStr := "Integration".data

def sBasedGenCtx : PyStr := "Estimate based on general knowledge and context".data

def sBasedGen : PyStr := "Estimate based on general knowledge".data

/-- Truncation toward zero, Python `int(float)`. -/
def truncQ (q : ℚ) : ℤ := if q < 0 then -(Int.floor (-q)) else Int.floor q

/-- Python `int(str)`: strip whitespace, optional sign, a non-empty digit
run (underscored literals are not modelled). -/
def pyIntOfStr (s : PyStr) : Option ℤ :=
  match pyStrip s with
  | '-' :: ds =>
    if !ds.isEmpty && ds.all Char.isDigit then some (-(digitsToNat ds : ℤ)) else none
  | '+' :: ds =>
    if !ds.isEmpty && ds.all Char.isDigit then some (digitsToNat ds : ℤ) else none
  | ds =>
    if !ds.isEmpty && ds.all Char.isDigit then some (digitsToNat ds : ℤ) else none

/-- Python `int(value)` on a JSON value: numbers truncate toward zero,
booleans become 0/1, digit strings parse, everything else raises. -/
def pyInt : Json → Option ℤ
  | .num q => some (truncQ q)
  | .bool b => some (if b then 1 else 0)
  | .str s => pyIntOfStr s
  | _ => none

/-- `_is_query_vague_or_irrelevant`, consuming one oracle entry when the
client is configured.  Returns the verdict (the truthiness of the value the
method returns) and the next oracle index.  A response that parses to a
non-dict JSON value raises `AttributeError` at `result.get`, which the
outer handler converts to `False`. -/
def isVagueStep (client : Option Unit) (o : Oracle) (k : ℕ) : Bool × ℕ :=
  match client with
  | none => (false, k)
  | some _ =>
    match o k with
    | .error _ => (false, k + 1)
    | .ok raw =>
      let content := pyReSubLit sBt (pyReSubLit sBtJson (pyStrip raw))
      match jsonLoads content with
      | some (.obj kvs) => (truthy (dictGetD kvs kVagueK (Json.bool false)), k + 1)
      | some _ => (false, k + 1)
      | none =>
        let cl := pyLower content
        (infixB sTrue cl || infixB sVague cl || infixB sIrrelevant cl, k + 1)

/-- The shared response handling of `_extract_from_estimates_txt` and its
`_direct` variant: a dict with `hours` and `name` keys whose `hours`
converts by `int()` yields the synthesized feature dict, anything else
yields `None`. -/
def estimatesHit (desc : PyStr) (j : Json) : Option Json :=
  match j with
  | .obj kvs =>
    if hasKey kvs kHoursJK && hasKey kvs kNameK then
      match pyInt (dictGetD kvs kHoursJK .null) with
      | some h =>
        some (.obj [(kNameK, dictGetD kvs kNameK .null),
                    (kDescriptionK, .str desc),
                    (kMinK, .num ((max 1 (truncQ ((h : ℚ) * (17/20))) : ℤ) : ℚ)),
                    (kMaxK, .num ((truncQ ((h : ℚ) * (23/20)) : ℤ) : ℚ)),
                    (kComplexityK, .str kMediumV),
                    (kCategoryK, .str sFeatureDev)])
      | none => none
    else none
  | _ => none

/-- `_extract_from_estimates_txt`: `None` without context or client,
otherwise one oracle round trip whose response is cleaned and fed to
`estimatesHit`. -/
def extractFromEstimatesTxt (client : Option Unit) (o : Oracle) (k : ℕ)
    (context : PyStr) : Option Json × ℕ :=
  if context.isEmpty || client.isNone then (none, k)
  else
    match o k with
    | .error _ => (none, k + 1)
    | .ok raw =>
      match jsonLoads (helperClean raw) with
      | some j => (estimatesHit sBasedOnEst j, k + 1)
      | none => (none, k + 1)

/-- `_extract_from_estimates_txt_direct`: the same with the raw
`Estimates.txt` text as the guard and a different description string. -/
def extractDirect (client : Option Unit) (o : Oracle) (k : ℕ)
    (estimates_txt : PyStr) : Option Json × ℕ :=
  if client.isNone || estimates_txt.isEmpty then (none, k)
  else
    match o k with
    | .error _ => (none, k + 1)
    | .ok raw =>
      match jsonLoads (helperClean raw) with
      | some j => (estimatesHit sBasedOnEstD j, k + 1)
      | none => (none, k + 1)

/-- `query[:50] if len(query) > 50 else query`. -/
def queryTrunc (query : PyStr) : PyStr :=
  if 50 < query.length then query.take 50 else query

/-- The basic 20–40 hour estimate of the last-resort return in
`extract_features_from_query`. -/
def basicFeature20 (query : PyStr) : Json :=
  .obj [(kNameK, .str (queryTrunc query)),
        (kDescriptionK, .str sBasedGen),
        (kMinK, .num 20), (kMaxK, .num 40),
        (kComplexityK, .str kMediumV),
        (kCategoryK, .str sIntegrationV)]

/-- The basic 25–50 hour estimate returned when everything inside
`_generate_estimate_from_knowledge` fails. -/
def basicFeature25 (query : PyStr) : Json :=
  .obj [(kNameK, .str (queryTrunc query)),
        (kDescriptionK, .str sBasedGenCtx),
        (kMinK, .num 25), (kMaxK, .num 50),
        (kComplexityK, .str kMediumV),
        (kCategoryK, .str sIntegrationV)]

/-- `_normalize_features` on a value that is only known to be iterable
(`features["features"]` in strategy 1): iterate, then normalize each item. -/
def normalizePy (j : Json) : Except Unit (List Json) :=
  match pyIter j with
  | .error e => .error e
  | .ok items => normalizeFeatures items

/-- `json.loads` over each regex match; `none` as soon as one fails. -/
def loadsAll : List PyStr → Option (List Json)
  | [] => some []
  | m :: ms =>
    match jsonLoads m with
    | none => none
    | some j =>
      match loadsAll ms with
      | none => none
      | some js => some (j :: js)

/-- The hour-range scan of `_generate_estimate_from_knowledge`'s except
branch: a `min-max hours` match in the response text yields a feature dict,
otherwise the basic 25–50 estimate is returned. -/
def hourFallback (content query : PyStr) : List Json :=
  match hourSearch content with
  | some (a, b) =>
    [.obj [(kNameK, .str (queryTrunc query)),
           (kDescriptionK, .str sGenModelKnow),
           (kMinK, .num a), (kMaxK, .num b),
           (kComplexityK, .str kMediumV),
           (kCategoryK, .str sIntegrationV)]]
  | none => [basicFeature25 query]

/-- `_generate_estimate_from_knowledge`: one oracle round trip (the
`Estimates.txt` schema pretty-printing only feeds the prompt and is
elided).  A scalar JSON response returns `[]`; a dict or list response is
normalized (a normalization `TypeError` falls to the hour-range scan, an
empty normalization falls to the basic estimate); a parse failure falls to
the hour-range scan; a raised call returns the basic estimate. -/
def genEstimateFromKnowledge (client : Option Unit) (o : Oracle) (k : ℕ)
    (query : PyStr) : List Json × ℕ :=
  match client with
  | none => ([], k)
  | some _ =>
    match o k with
    | .error _ => ([basicFeature25 query], k + 1)
    | .ok raw =>
      let content := helperClean raw
      match jsonLoads content with
      | some (.obj kvs) =>
        (match normalizeFeatures [Json.obj kvs] with
         | .ok l => (l, k + 1)
         | .error _ => (hourFallback content query, k + 1))
      | some (.arr items) =>
        (match normalizeFeatures items with
         | .ok [] => ([basicFeature25 query], k + 1)
         | .ok l => (l, k + 1)
         | .error _ => (hourFallback content query, k + 1))
      | some _ => ([], k + 1)
      | none => (hourFallback content query, k + 1)

/-- `_fallback_feature_extraction`: first the `Estimates.txt` extractor,
then one oracle round trip whose cleaned response is searched for a
bracketed span (parsed and normalized when found) with the balanced-object
`findall` over the whole response as the decode-error recovery; every
failure ends in `[]`. -/
def fallbackFeatureExtraction (client : Option Unit) (o : Oracle) (k : ℕ)
    (context : PyStr) : List Json × ℕ :=
  match client with
  | none => ([], k)
  | some _ =>
    match extractFromEstimatesTxt client o k context with
    | (some d, k1) => ([d], k1)
    | (none, k1) =>
      match o k1 with
      | .error _ => ([], k1 + 1)
      | .ok raw =>
        let content := mainClean raw
        match firstBracketSpan content with
        | none => ([], k1 + 1)
        | some span =>
          match jsonLoads span with
          | some (.arr items) =>
            (match normalizeFeatures items with
             | .ok l => (l, k1 + 1)
             | .error _ => ([], k1 + 1))
          | some _ => ([], k1 + 1)
          | none =>
            match loadsAll (objFindall content) with
            | some [] => ([], k1 + 1)
            | some js =>
              if (objFindall content).isEmpty then ([], k1 + 1)
              else match normalizeFeatures js with
                   | .ok l => (l, k1 + 1)
                   | .error _ => ([], k1 + 1)
            | none => ([], k1 + 1)

def sHdrRelevant : PyStr :=
  "=== RELEVANT CONTEXT (PRIMARY - USE THIS IF IT HAS FEATURE INFO) ===\n".data

def sHdrEstRef : PyStr :=
  "\n=== ESTIMATES.TXT JSON SCHEMA (REFERENCE/FALLBACK - FULL SCHEMA) ===\n".data

def sHdrEstPrim : PyStr :=
  "=== ESTIMATES.TXT JSON SCHEMA (PRIMARY - NO CONTEXT INFO FOUND) ===\n".data

/-- `.ok` results pass, `.error` (a raised normalization) falls through to
the next strategy. -/
def exOk : Except Unit (List Json) → Option (List Json)
  | .ok l => some l
  | .error _ => none

/-- The first dict value that is a list (`for key, value in features.items()`). -/
def firstArrValue : List (PyStr × Json) → Option (List Json)
  | [] => none
  | (_, .arr items) :: _ => some items
  | _ :: rest => firstArrValue rest

/-- Strategy 1 of `extract_features_from_query`: direct parse; lists are
normalized, dicts contribute their `features` key or their first list
value.  `some r` = the strategy returned `r`, `none` = fall through. -/
def strategy1 (content : PyStr) : Option (List Json) :=
  match jsonLoads content with
  | none => none
  | some (.arr items) => exOk (normalizeFeatures items)
  | some (.obj kvs) =>
    if hasKey kvs kFeaturesK then exOk (normalizePy (dictGetD kvs kFeaturesK .null))
    else
      match firstArrValue kvs with
      | some items => exOk (normalizeFeatures items)
      | none => none
  | some _ => none

/-- Strategy 2: the first bracketed span; if its braces are unbalanced the
balanced-object matches inside the span are parsed individually, otherwise
the span itself is parsed and normalized when it is a list. -/
def strategy2 (content : PyStr) : Option (List Json) :=
  match firstBracketSpan content with
  | none => none
  | some span =>
    if countCh '}' span < countCh '{' span then
      if (objFindall span).isEmpty then none
      else
        match loadsAll (objFindall span) with
        | some js => exOk (normalizeFeatures js)
        | none => none
    else
      match jsonLoads span with
      | some (.arr items) => exOk (normalizeFeatures items)
      | _ => none

/-- Strategy 3: parse the first bracketed span directly. -/
def strategy3 (content : PyStr) : Option (List Json) :=
  match firstBracketSpan content with
  | none => none
  | some span =>
    match jsonLoads span with
    | some (.arr items) => exOk (normalizeFeatures items)
    | _ => none

/-- The context assembly of `extract_features_from_query` (lines 416–490):
vector context (budget 6000), broader knowledge-base context (budget 4000)
when distinct, the caller's context when distinct; the keyword /
length > 500 relevance test selects the header layout; with no parts the
raw `Estimates.txt` text is the combined context. -/
def assembleCombinedContext (kb : KBModel) (query context : PyStr) : PyStr :=
  let estimates_txt := kb.chatgpt_examples
  let vector_context :=
    match kb.vector_store with
    | some rs => getRelevantContext rs 6000
    | none => []
  let broader_context := getContextForQuery kb query 4000
  let s1 : List PyStr := if vector_context.isEmpty then [] else [vector_context]
  let s2 := if broader_context.isEmpty || broader_context == vector_context then s1
            else s1 ++ [broader_context]
  let s3 := if context.isEmpty || s2.any (· == context) then s2 else s2 ++ [context]
  let combined_text := if s3.isEmpty then ([] : PyStr) else pyJoin sNN s3
  let query_keywords := (pySplitWs (pyLower query)).filter (fun w => 3 < w.length)
  let context_has_info :=
    !combined_text.isEmpty &&
      (!(query_keywords.filter (fun w => infixB w (pyLower combined_text))).isEmpty
        || decide (500 < combined_text.length))
  let context_parts :=
    (if context_has_info && !combined_text.isEmpty then [sHdrRelevant ++ combined_text] else []) ++
    (if estimates_txt.isEmpty then []
     else if context_has_info then [sHdrEstRef ++ estimates_txt]
     else [sHdrEstPrim ++ estimates_txt])
  if context_parts.isEmpty then estimates_txt else pyJoin sNN context_parts

/-- Strategies 1–3 followed by the fallback ladder (strategies 4–5,
`_fallback_feature_extraction`, `_generate_estimate_from_knowledge`, basic
20–40 estimate) on the successfully cleaned response `content`. -/
def strategyChain (client : Option Unit) (o : Oracle) (k : ℕ)
    (query cc et content : PyStr) : List Json × ℕ :=
  match strategy1 content with
  | some r => (r, k)
  | none =>
    match strategy2 content with
    | some r => (r, k)
    | none =>
      match strategy3 content with
      | some r => (r, k)
      | none =>
        let p := extractFromEstimatesTxt client o k cc
        match p.1 with
        | some d => ([d], p.2)
        | none =>
          let pd := extractDirect client o p.2 et
          match pd.1 with
          | some d => ([d], pd.2)
          | none =>
            let pf := fallbackFeatureExtraction client o pd.2 cc
            if !pf.1.isEmpty then pf
            else
              let pg := genEstimateFromKnowledge client o pf.2 query
              if !pg.1.isEmpty then pg
              else ([basicFeature20 query], pg.2)

/-- The `except` handler of `extract_features_from_query` (lines 792–835):
the fallback ladder, then — only here — a vague re-classification before
the basic 20–40 estimate. -/
def exceptionHandler (client : Option Unit) (o : Oracle) (k : ℕ)
    (query cc et : PyStr) : List Json × ℕ :=
  let p := extractFromEstimatesTxt client o k cc
  match p.1 with
  | some d => ([d], p.2)
  | none =>
    let pd := extractDirect client o p.2 et
    match pd.1 with
    | some d => ([d], pd.2)
    | none =>
      let pf := fallbackFeatureExtraction client o pd.2 cc
      if !pf.1.isEmpty then pf
      else
        let pg := genEstimateFromKnowledge client o pf.2 query
        if !pg.1.isEmpty then pg
        else
          let pv := isVagueStep client o pg.2
          if pv.1 then ([], pv.2)
          else ([basicFeature20 query], pv.2)

/-- `extract_features_from_query` over the response stream, starting at
oracle index `k` and returning the list together with the next index.
The model is a total function: every raising operation in the source body
is inside a `try` whose handler returns, so no exception escapes — the
`.error` arm of each oracle entry is consumed on the spot. -/
def extractFeaturesFromQuery (client : Option Unit) (kb : KBModel) (o : Oracle)
    (k : ℕ) (query context : PyStr) : List Json × ℕ :=
  match client with
  | none => ([], k)
  | some _ =>
    let v0 := isVagueStep client o k
    if v0.1 then ([], v0.2)
    else
      let cc := assembleCombinedContext kb query context
      if cc.isEmpty then ([], (isVagueStep client o v0.2).2)
      else
        match o v0.2 with
        | .error _ => exceptionHandler client o (v0.2 + 1) query cc kb.chatgpt_examples
        | .ok raw => strategyChain client o (v0.2 + 1) query cc kb.chatgpt_examples (mainClean raw)

theorem isVagueStep_snd (u : Unit) (o : Oracle) (k : ℕ) :
    (isVagueStep (some u) o k).2 = k + 1 := by
  unfold isVagueStep
  cases ho : o k
  · rfl
  · simp only []
    split <;> rfl

theorem extractFromEstimatesTxt_snd_ge (client : Option Unit) (o : Oracle) (k : ℕ)
    (c : PyStr) : k ≤ (extractFromEstimatesTxt client o k c).2 := by
  unfold extractFromEstimatesTxt
  repeat' split
  all_goals simp

theorem extractDirect_snd_ge (client : Option Unit) (o : Oracle) (k : ℕ)
    (et : PyStr) : k ≤ (extractDirect client o k et).2 := by
  unfold extractDirect
  repeat' split
  all_goals simp

theorem genEstimateFromKnowledge_snd_ge (client : Option Unit) (o : Oracle) (k : ℕ)
    (query : PyStr) : k ≤ (genEstimateFromKnowledge client o k query).2 := by
  unfold genEstimateFromKnowledge
  repeat' split
  all_goals simp only []
  all_goals (repeat' split)
  all_goals simp

theorem fallbackFeatureExtraction_snd_ge (client : Option Unit) (o : Oracle) (k : ℕ)
    (c : PyStr) : k ≤ (fallbackFeatureExtraction client o k c).2 := by
  unfold fallbackFeatureExtraction
  cases client with
  | none => simp
  | some u =>
    simp only []
    split
    · rename_i d k1 heq
      have hg := extractFromEstimatesTxt_snd_ge (some u) o k c
      rw [heq] at hg
      simpa using hg
    · rename_i k1 heq
      have hg := extractFromEstimatesTxt_snd_ge (some u) o k c
      rw [heq] at hg
      simp only [] at hg
      repeat' split
      all_goals simp only []
      all_goals (repeat' split)
      all_goals simp at hg ⊢
      all_goals omega

theorem strategyChain_empty (client : Option Unit) (o : Oracle) (k : ℕ)
    (query cc et content : PyStr) (k' : ℕ)
    (h : strategyChain client o k query cc et content = ([], k')) :
    strategy1 content = some [] ∨ strategy2 content = some [] ∨
      strategy3 content = some [] := by
  unfold strategyChain at h
  cases h1 : strategy1 content with
  | some r =>
    rw [h1] at h
    simp only [] at h
    injection h with ha _
    left
    rw [ha]
  | none =>
    rw [h1] at h
    simp only [] at h
    cases h2 : strategy2 content with
    | some r =>
      rw [h2] at h
      simp only [] at h
      injection h with ha _
      right; left
      rw [ha]
    | none =>
      rw [h2] at h
      simp only [] at h
      cases h3 : strategy3 content with
      | some r =>
        rw [h3] at h
        simp only [] at h
        injection h with ha _
        right; right
        rw [ha]
      | none =>
        rw [h3] at h
        simp only [] at h
        exfalso
        cases hp : (extractFromEstimatesTxt client o k cc).1 with
        | some d => rw [hp] at h; simp at h
        | none =>
          rw [hp] at h
          simp only [] at h
          cases hpd : (extractDirect client o (extractFromEstimatesTxt client o k cc).2 et).1 with
          | some d => rw [hpd] at h; simp at h
          | none =>
            rw [hpd] at h
            simp only [] at h
            split at h
            · rename_i hguard
              have hfst := congrArg Prod.fst h
              simp only [] at hfst
              rw [hfst] at hguard
              simp at hguard
            · split at h
              · rename_i hguard
                have hfst := congrArg Prod.fst h
                simp only [] at hfst
                rw [hfst] at hguard
                simp at hguard
              · simp at h

theorem exceptionHandler_empty (client : Option Unit) (o : Oracle) (k : ℕ)
    (query cc et : PyStr) (k' : ℕ)
    (h : exceptionHandler client o k query cc et = ([], k')) :
    ∃ m, k ≤ m ∧ (isVagueStep client o m).1 = true := by
  unfold exceptionHandler at h
  simp only [] at h
  cases hp : (extractFromEstimatesTxt client o k cc).1 with
  | some d => rw [hp] at h; simp at h
  | none =>
    rw [hp] at h
    simp only [] at h
    cases hpd : (extractDirect client o (extractFromEstimatesTxt client o k cc).2 et).1 with
    | some d => rw [hpd] at h; simp at h
    | none =>
      rw [hpd] at h
      simp only [] at h
      split at h
      · rename_i hguard
        have hfst := congrArg Prod.fst h
        simp only [] at hfst
        rw [hfst] at hguard
        simp at hguard
      · split at h
        · rename_i hguard
          have hfst := congrArg Prod.fst h
          simp only [] at hfst
          rw [hfst] at hguard
          simp at hguard
        · split at h
          · rename_i hv
            refine ⟨_, ?_, hv⟩
            have g1 := extractFromEstimatesTxt_snd_ge client o k cc
            have g2 := extractDirect_snd_ge client o (extractFromEstimatesTxt client o k cc).2 et
            have g3 := fallbackFeatureExtraction_snd_ge client o
              (extractDirect client o (extractFromEstimatesTxt client o k cc).2 et).2 cc
            have g4 := genEstimateFromKnowledge_snd_ge client o
              (fallbackFeatureExtraction client o
                (extractDirect client o (extractFromEstimatesTxt client o k cc).2 et).2 cc).2 query
            omega
          · simp at h

/-- A knowledge base with nothing cached: no documents, empty
`Estimates.txt`, failed vector-store initialization. -/
def kbNone : KBModel := ⟨[], [], none⟩

/-- A provider whose every call raises. -/
def errOracle : Oracle := fun _ => .error ()

/-- **C1.** As written the claim fails: the returned list can be empty with
a configured client and a query the classifier deems actionable.  This
theorem proves the amended characterization: when
`extract_features_from_query` returns an empty list, either the client is
unconfigured, or the initial vague classification fired, or the combined
context assembled to the empty string (both returns of lines 495–499 yield
`[]`, even when the re-classification deems the query actionable), or the
successfully parsed LLM response was a well-formed empty feature array
(one of the three parse strategies returned `some []`), or the main call
raised and the re-classification in the exception handler (at some later
oracle index) deemed the query vague.  The model is total — no exception
escapes — because every raising operation of the source body sits inside a
handler that returns. -/
theorem claim_extract_liveness :
    ∀ (client : Option Unit) (kb : KBModel) (o : Oracle) (query context : PyStr)
      (l : List Json) (k' : ℕ),
      extractFeaturesFromQuery client kb o 0 query context = (l, k') → l = [] →
      client = none ∨
      (isVagueStep client o 0).1 = true ∨
      (assembleCombinedContext kb query context).isEmpty = true ∨
      (∃ raw, o 1 = .ok raw ∧
        (strategy1 (mainClean raw) = some [] ∨ strategy2 (mainClean raw) = some [] ∨
          strategy3 (mainClean raw) = some [])) ∨
      (∃ e, o 1 = .error e ∧ ∃ m, 2 ≤ m ∧ (isVagueStep client o m).1 = true) := by
  intro client kb o query context l k' h he
  subst he
  cases client with
  | none => exact Or.inl rfl
  | some u =>
    unfold extractFeaturesFromQuery at h
    simp only [] at h
    by_cases hv : (isVagueStep (some u) o 0).1 = true
    · exact Or.inr (Or.inl hv)
    · rw [if_neg hv] at h
      by_cases hcc : (assembleCombinedContext kb query context).isEmpty = true
      · exact Or.inr (Or.inr (Or.inl hcc))
      · rw [if_neg hcc] at h
        have hsnd := isVagueStep_snd u o 0
        rw [hsnd] at h
        cases ho : o 1 with
        | error e =>
          rw [ho] at h
          simp only [] at h
          obtain ⟨m, hm, hv2⟩ := exceptionHandler_empty (some u) o (0 + 1 + 1) query _ _ k' h
          exact Or.inr (Or.inr (Or.inr (Or.inr ⟨e, rfl, m, by omega, hv2⟩)))
        | ok raw =>
          rw [ho] at h
          simp only [] at h
          exact Or.inr (Or.inr (Or.inr (Or.inl
            ⟨raw, rfl, strategyChain_empty (some u) o (0 + 1 + 1) query _ _ (mainClean raw) k' h⟩)))

/-- **C1 counterexample.** With a configured client, an empty knowledge
base and a provider whose every call raises, the feature query "payment"
is classified actionable (the classifier defaults to actionable on a
raised call) yet the extraction returns the empty list via the
empty-combined-context return — the claim allows an empty list only for an
unconfigured client or a vague classification. -/
theorem claim_extract_liveness_cx :
    extractFeaturesFromQuery (some ()) kbNone errOracle 0 sPayment [] = ([], 2) ∧
    (isVagueStep (some ()) errOracle 0).1 = false ∧
    (isVagueStep (some ()) errOracle 1).1 = false := ⟨rfl, rfl, rfl⟩

/-- **C1 witness.** The amended theorem applied at the counterexample
input: the disjunct that fires is the empty-combined-context one. -/
theorem claim_extract_liveness_witness :
    (some () : Option Unit) = none ∨
    (isVagueStep (some ()) errOracle 0).1 = true ∨
    (assembleCombinedContext kbNone sPayment []).isEmpty = true ∨
    (∃ raw, errOracle 1 = .ok raw ∧
      (strategy1 (mainClean raw) = some [] ∨ strategy2 (mainClean raw) = some [] ∨
        strategy3 (mainClean raw) = some [])) ∨
    (∃ e, errOracle 1 = .error e ∧ ∃ m, 2 ≤ m ∧ (isVagueStep (some ()) errOracle m).1 = true) :=
  claim_extract_liveness (some ()) kbNone errOracle sPayment [] [] 2 rfl rfl

/-! ## `OpenAIService.chat` and `app/api/endpoints.py` -/

def sHello : PyStr := "hello".data

def sHi : PyStr := "hi".data

def sHey : PyStr := "hey".data

def sGreetings : PyStr := "greetings".data

def sGoodMorning : PyStr := "good morning".data

def sGoodAfternoon : PyStr := "good afternoon".data

def greetingKeywords : List PyStr :=
  [sHello, sHi, sHey, sGreetings, sGoodMorning, sGoodAfternoon]

def sCost : PyStr := "cost".data

def sPrice : PyStr := "price".data

def sTime : PyStr := "time".data

def sHours : PyStr := "hours".data

def sBudget : PyStr := "budget".data

def sTimelineK : PyStr := "timeline".data

def sFeature : PyStr := "feature".data

def sBuild : PyStr := "build".data

def sDevelop : PyStr := "develop".data

def sImplement : PyStr := "implement".data

def sAuthentication : PyStr := "authentication".data

def sDashboard : PyStr := "dashboard".data

def sSystem : PyStr := "system".data

def estimationKeywords : List PyStr :=
  [sEstimate, sCost, sPrice, sTime, sHours, sBudget, sTimelineK, sFeature,
   sBuild, sDevelop, sImplement, sAuthentication, sDashboard, sPayment, sSystem]

def sNotConfigured : PyStr :=
  "OpenAI API is not configured. Please set OPENAI_API_KEY environment variable.".data

def sGreetReply : PyStr :=
  "Hello! I\x27m your Estimation Bot. I specialize in providing time and cost estimates for client onboarding systems. What would you like to estimate today?".data

def sRedirectReply : PyStr :=
  "I specialize in providing time and cost estimates for client onboarding systems. Could you tell me about the features you\x27d like to estimate?".data

/-- The fixed prefix of `f"I apologize, but I encountered an error: {str(e)}"`;
the rendered exception text is not modelled. -/
def sApology : PyStr := "I apologize, but I encountered an error: ".data

def sBOpen : PyStr := "<b>".data

def sBClose : PyStr := "</b>".data

def sBr : PyStr := "<br/>".data

def sBrBr : PyStr := "<br/><br/>".data

def sNextSteps : PyStr := "Next Steps".data

def sNextStepsL : PyStr := "next steps".data

/-- Find the lazy closing `**` of `re.sub(r"\*\*(.+?)\*\*", ...)`: scan for
the first `**` after at least one inner character, failing at a newline
(`.` does not match `\n`).  Returns the inner text and the input after the
closing marker. -/
def mdFindClose : PyStr → PyStr → Option (PyStr × PyStr)
  | _, [] => none
  | acc, d :: ds =>
    if d == '\n' then none
    else if prefixB sStars (d :: ds) && !acc.isEmpty then some (acc.reverse, ds.tail)
    else mdFindClose (d :: acc) ds

/-- Length-fueled worker replacing each `**inner**` with `<b>inner</b>`. -/
def mdBoldAux : ℕ → PyStr → PyStr
  | 0, s => s
  | _+1, [] => []
  | fuel+1, c :: rest =>
    if prefixB sStars (c :: rest) then
      match mdFindClose [] rest.tail with
      | some (inner, after) => sBOpen ++ inner ++ sBClose ++ mdBoldAux fuel after
      | none => c :: mdBoldAux fuel rest
    else c :: mdBoldAux fuel rest

def mdBoldToHtml (s : PyStr) : PyStr := mdBoldAux (s.length + 1) s

/-- Worker for `pyReplace`. -/
def replaceAllAux (pat rep : PyStr) : ℕ → PyStr → PyStr
  | 0, s => s
  | _+1, [] => []
  | fuel+1, c :: rest =>
    if prefixB pat (c :: rest) && !pat.isEmpty then
      rep ++ replaceAllAux pat rep fuel ((c :: rest).drop pat.length)
    else c :: replaceAllAux pat rep fuel rest

/-- Python `s.replace(pat, rep)`: all non-overlapping leftmost occurrences. -/
def pyReplace (s pat rep : PyStr) : PyStr := replaceAllAux pat rep (s.length + 1) s

/-- Worker for `pySplitOn`. -/
def splitOnAux (sep : PyStr) : ℕ → PyStr → PyStr → List PyStr
  | 0, acc, s => [acc.reverse ++ s]
  | _+1, acc, [] => [acc.reverse]
  | fuel+1, acc, c :: rest =>
    if prefixB sep (c :: rest) && !sep.isEmpty then
      acc.reverse :: splitOnAux sep fuel [] ((c :: rest).drop sep.length)
    else splitOnAux sep fuel (c :: acc) rest

/-- Python `s.split(sep)` for a non-empty separator. -/
def pySplitOn (s sep : PyStr) : List PyStr := splitOnAux sep (s.length + 1) [] s

/-- The filtering loop of the Next-Steps stripper: once a line mentions the
marker, it and everything after it is dropped. -/
def dropFromMarker : List PyStr → List PyStr
  | [] => []
  | l :: ls =>
    if infixB sNextSteps l || infixB sNextStepsL (pyLower l) then []
    else l :: dropFromMarker ls

/-- The `"Next Steps"` removal of `OpenAIService.chat` (lines 1234–1243). -/
def stripNextSteps (content : PyStr) : PyStr :=
  if infixB sNextSteps content || infixB sNextStepsL (pyLower content) then
    pyStrip (pyJoin sBr (dropFromMarker (pySplitOn content sBr)))
  else content

/-- `OpenAIService.chat` over the response stream starting at index `k`:
the unconfigured-client message, the greeting and redirect short-circuits,
otherwise one oracle round trip whose response is markdown-converted and
Next-Steps-stripped (a raised call yields the apology message; the vector
context and system prompt only feed the request and are elided).  Returns
the reply and the next oracle index. -/
def svcChat (client : Option Unit) (o : Oracle) (k : ℕ) (message : PyStr)
    (history : List (PyStr × PyStr)) : PyStr × ℕ :=
  match client with
  | none => (sNotConfigured, k)
  | some _ =>
    let ml := pyStrip (pyLower message)
    let is_greeting := greetingKeywords.any (fun g => infixB g ml) &&
      decide ((pySplitWs ml).length < 5)
    let is_est := estimationKeywords.any (fun g => infixB g ml)
    if is_greeting then (sGreetReply, k)
    else if !is_est && history.isEmpty then (sRedirectReply, k)
    else
      match o k with
      | .error _ => (sApology, k + 1)
      | .ok raw =>
        let c1 := mdBoldToHtml (pyStrip raw)
        (stripNextSteps (pyReplace (pyReplace c1 sNN sBrBr) sNl sBr), k + 1)

/-- A Python value in an endpoint argument position: a string or float
form field, `None`, or one of the service objects the `/chat` endpoint
passes positionally. -/
inductive PyVal where
  | pstr (s : PyStr)
  | pnum (q : ℚ)
  | pnone
  | estReqV (requirements : PyStr)
  | kbV
  | svcV

/-- Python truthiness of such a value (objects are truthy). -/
def pyTruthy : PyVal → Bool
  | .pstr s => !s.isEmpty
  | .pnum q => decide (q ≠ 0)
  | .pnone => false
  | _ => true

/-- `requirements + "\n\n"`: defined for a string, a `TypeError` for
everything else (an `EstimateRequest`, a number, a service object). -/
def pyAddNN : PyVal → Except Unit PyStr
  | .pstr s => .ok (s ++ sNN)
  | _ => .error ()

/-- The response model of `/estimate`. -/
structure EstimateResponse where
  estimated_time_hours_min : ℚ
  estimated_time_hours_max : ℚ
  estimated_cost_min : ℚ
  estimated_cost_max : ℚ

inductive HTTPError where
  | http (status : ℕ)

def sBasedReqs : PyStr := "Estimate based on requirements".data

/-- The emergency 30–60 estimate of the endpoint retry (lines 134–141). -/
def emergencyFeature (s : PyStr) : Json :=
  .obj [(kNameK, .str (queryTrunc s)),
        (kDescriptionK, .str sBasedReqs),
        (kMinK, .num 30), (kMaxK, .num 60),
        (kComplexityK, .str kMediumV),
        (kCategoryK, .str sFeatureDev)]

/-- The `/estimate` endpoint body over the oracle stream starting at `k`.
The file-upload branch is outside the modelled surface: every modelled
caller passes either `None` (falsy, skipped) or a non-upload object whose
first attribute access raises, which the generic handler turns into a 500.
A `TypeError` from `requirements + "\n\n"` or from the estimation engine
likewise becomes a 500; an unusable requirements string is a 400. -/
def createEstimateEndpoint (requirements hourly_rate file : PyVal)
    (kb : KBModel) (client : Option Unit) (o : Oracle) (k : ℕ) :
    Except HTTPError EstimateResponse :=
  match (if pyTruthy requirements then pyAddNN requirements else .ok []) with
  | .error _ => .error (.http 500)
  | .ok combined0 =>
    if pyTruthy file then .error (.http 500)
    else if (pyStrip combined0).isEmpty then .error (.http 400)
    else
      let context := getContextForQuery kb combined0 3000
      let p1 := extractFeaturesFromQuery client kb o k combined0 context
      let features :=
        if p1.1.isEmpty then
          let p2 := extractFeaturesFromQuery client kb o p1.2 combined0
            (getContextForQuery kb combined0 5000)
          if p2.1.isEmpty then [emergencyFeature combined0] else p2.1
        else p1.1
      let hr1 := if pyTruthy hourly_rate then hourly_rate else .pnum 30
      let hr2 := if pyTruthy hr1 then hr1 else .pnum DEFAULT_HOURLY_RATE
      match hr2 with
      | .pnum q =>
        (match createBreakdown q BUFFER_PERCENTAGE features with
         | .error _ => .error (.http 500)
         | .ok breakdown =>
           let t := calculateTotal breakdown
           .ok ⟨t.1, t.2.1, t.2.2.1, t.2.2.2⟩)
      | _ => .error (.http 500)

/-- The response model of `/chat` (the fresh-UUID `conversation_id` is not
modelled). -/
structure ChatResponse where
  response : PyStr
  estimate : Option EstimateResponse

/-- The `/chat` endpoint: the service reply, then the opportunistic
`await create_estimate(estimate_req, get_knowledge_base(), openai_service)`
call — binding the `EstimateRequest` object to `requirements`, the
knowledge base to `hourly_rate` and the service to `file` — whose
exception is swallowed, leaving `estimate` as assigned. -/
def chatEndpoint (client : Option Unit) (kb : KBModel) (o : Oracle)
    (message : PyStr) (history : List (PyStr × PyStr)) :
    Except HTTPError ChatResponse :=
  let pr := svcChat client o 0 message history
  let est :=
    match createEstimateEndpoint (.estReqV message) .kbV .svcV kb client o pr.2 with
    | .ok e => some e
    | .error _ => none
  .ok ⟨pr.1, est⟩

/-- **C10.** For every chat request the misbound internal
`create_estimate` call raises (the `EstimateRequest` object bound to
`requirements` is truthy, so `requirements + "\n\n"` is a `TypeError`,
turned into an HTTP 500), the exception is swallowed, and the endpoint
still returns the chat reply with `estimate = None`. -/
theorem claim_chat_estimate_none :
    ∀ (client : Option Unit) (kb : KBModel) (o : Oracle) (message : PyStr)
      (history : List (PyStr × PyStr)),
      createEstimateEndpoint (.estReqV message) .kbV .svcV kb client o
          (svcChat client o 0 message history).2 = .error (.http 500) ∧
      chatEndpoint client kb o message history =
        .ok ⟨(svcChat client o 0 message history).1, none⟩ := by
  intro client kb o message history
  exact ⟨rfl, rfl⟩
